import Mathlib

/-!
Verification of the Acequia water-allocation solver (`src/StudentSolution.cpp`).

The C++ code is embedded shallowly:
* `double` arithmetic is idealized as exact rational arithmetic (`ℚ`); the
  algorithm uses only `+`, `-`, `min`, `max`, comparisons and division by the
  constant `3600`, and all constants of interest are decimal fractions.
* The in-place mutation of regions, canals and water sources is explicit state
  passing over lists indexed by `Nat` (a pointer becomes the index of the
  object in the externally-owned collection).
* The per-hour greedy transfer loop (a `while` with an iteration counter
  capped by `kMaxLoops`) becomes a well-founded recursion on
  `kMaxLoops - loops`.
* A ghost trace of `TransferEvent`s records each executed transfer together
  with the state just before it; the trace influences neither control flow
  nor the water state, it only makes "for every executed transfer ..."
  properties statable.

The mutators `updateWaterLevel`, `toggleOpen`, `setFlowRate`, the driver's
`solved()` predicate, `hour` counter, `SimulationMax` bound and `nexthour()`
are declared in `acequia_manager.h`, which is not part of the repository
sources; those few pieces are modelled from the specification and are marked
as such in their doc comments.
-/

namespace Acequia



/-- `kEpsilon = 1e-3` from the source: tolerance for negligible amounts. -/
def kEpsilon : ℚ := 1/1000

/-- `kSafetyMargin = 0.10` from the source: fraction of capacity kept in donors. -/
def kSafetyMargin : ℚ := 1/10

/-- `kMaxLoops = 1000` from the source: cap on inner loop iterations per hour. -/
def kMaxLoops : Nat := 1000

/-- A region: current water level, required level (need), capacity. -/
structure Region where
  waterLevel : ℚ
  waterNeed : ℚ
  waterCapacity : ℚ
  deriving DecidableEq, Repr

instance : Inhabited Region := ⟨⟨0, 0, 0⟩⟩

/-- A finite reservoir with a depletable level. -/
structure WaterSource where
  waterLevel : ℚ
  deriving DecidableEq, Repr

instance : Inhabited WaterSource := ⟨⟨0⟩⟩

/-- A directed canal between two regions (stored as indices into the region
list), drawing from at most one water source (an index into the source list;
`none` models a null `waterSource` pointer). -/
structure Canal where
  sourceRegion : Nat
  destinationRegion : Nat
  waterSource : Option Nat
  isOpen : Bool
  flowRate : ℚ
  deriving DecidableEq, Repr

instance : Inhabited Canal := ⟨⟨0, 0, none, false, 0⟩⟩

/-- Modelled from the spec: `Region::updateWaterLevel` (declared in
`acequia_manager.h`, not in the repository sources) adds the signed delta to
the stored level; the scheduler calls it to "decrease the donor region's level
by `amount`, increase the target region's level by `amount`". -/
def Region.updateWaterLevel (r : Region) (delta : ℚ) : Region :=
  { r with waterLevel := r.waterLevel + delta }

/-- Modelled from the spec: `WaterSource::updateWaterLevel` (declared in
`acequia_manager.h`, not in the repository sources) adds the signed delta to
the reservoir level ("decrease the water source's level by `amount`"). -/
def WaterSource.updateWaterLevel (w : WaterSource) (delta : ℚ) : WaterSource :=
  { w with waterLevel := w.waterLevel + delta }

/-- Modelled from the spec: `Canal::toggleOpen` (declared in
`acequia_manager.h`, not in the repository sources) sets the open flag to the
given value; the scheduler uses it to "mark the canal open" and to close it
during the start-of-hour reset. -/
def Canal.toggleOpen (c : Canal) (b : Bool) : Canal :=
  { c with isOpen := b }

/-- Modelled from the spec: `Canal::setFlowRate` (declared in
`acequia_manager.h`, not in the repository sources) stores the given
instantaneous flow rate. -/
def Canal.setFlowRate (c : Canal) (q : ℚ) : Canal :=
  { c with flowRate := q }

/-- `safeSurplus` from the source: how much extra water a region can safely
give up, `max(0.0, (waterLevel - waterNeed) - kSafetyMargin * waterCapacity)`. -/
def safeSurplus (r : Region) : ℚ :=
  max 0 ((r.waterLevel - r.waterNeed) - kSafetyMargin * r.waterCapacity)

/-- `getDeficit` from the source: `max(0.0, waterNeed - waterLevel)`. -/
def getDeficit (r : Region) : ℚ :=
  max 0 (r.waterNeed - r.waterLevel)

/-- The raw (un-clamped) excess of a region over its need plus safety buffer;
`safeSurplus r = max 0 (rawExcess r)`. -/
def rawExcess (r : Region) : ℚ :=
  (r.waterLevel - r.waterNeed) - kSafetyMargin * r.waterCapacity

/-- The `Need` struct from the source: a region (by index) with the amount it
still needs.  Its C++ `operator<` compares `amount`, so the
`std::priority_queue<Need>` is a max-heap on `amount`. -/
structure Need where
  region : Nat
  amount : ℚ
  deriving DecidableEq, Repr

instance : Inhabited Need := ⟨⟨0, 0⟩⟩

/-- Extraction of `needs.top()`/`needs.pop()` from the `std::priority_queue`:
returns an element of maximal `amount` together with the remaining queue.
Which element is returned among equal keys is unspecified in C++; this model
fixes the deterministic choice of the earliest-pushed maximal element (the
spec allows any deterministic tie-break). -/
def popMax : List Need → Option (Need × List Need)
  | [] => none
  | n :: ns =>
    match popMax ns with
    | none => some (n, [])
    | some (m, rest) => if n.amount < m.amount then some (m, n :: rest) else some (n, ns)

/-- The mutable world the scheduler acts on: the externally-owned collections
of regions, water sources and canals. -/
structure HourState where
  regions : List Region
  sources : List WaterSource
  canals : List Canal
  deriving DecidableEq, Repr

instance : Inhabited HourState := ⟨⟨[], [], []⟩⟩

/-- Ghost record of one executed transfer (lines 114-118 of the source):
which canal, which water source, donor and target region indices, the
transferred amount, the (possibly stale) `avail` bound used, the remaining
deficit just before, and the whole state just before the transfer. -/
structure TransferEvent where
  canal : Nat
  wsrc : Nat
  donor : Nat
  target : Nat
  amount : ℚ
  availUsed : ℚ
  deficitBefore : ℚ
  pre : HourState
  deriving DecidableEq, Repr

/-- Execution of one transfer, mirroring lines 114-118 of the source:
`canal->toggleOpen(true); canal->setFlowRate(xfer / 3600.0);
ws->updateWaterLevel(-xfer); src->updateWaterLevel(-xfer);
target->updateWaterLevel(xfer);` (the three level updates are applied in that
order, exactly as in the C++). -/
def applyTransfer (st : HourState) (ci wi src tgt : Nat) (xfer : ℚ) : HourState :=
  let canals' := st.canals.set ci
    (((st.canals.getD ci default).toggleOpen true).setFlowRate (xfer / 3600))
  let sources' := st.sources.set wi
    ((st.sources.getD wi default).updateWaterLevel (-xfer))
  let regions1 := st.regions.set src
    ((st.regions.getD src default).updateWaterLevel (-xfer))
  let regions2 := regions1.set tgt
    ((regions1.getD tgt default).updateWaterLevel xfer)
  { regions := regions2, sources := sources', canals := canals' }

/-- Result of scanning a canal list / the donor list for one popped need. -/
structure ScanResult where
  st : HourState
  deficit : ℚ
  didTransfer : Bool
  trace : List TransferEvent
  deriving DecidableEq, Repr

/-- The inner `for (Canal* canal : it->second)` loop of the source: walk the
candidate canals from donor `src` to `tgt`, skipping canals whose water source
is absent or depleted, transferring
`min({deficit, avail, ws->waterLevel, space})` when it exceeds `kEpsilon`, and
stopping as soon as the remaining deficit drops to `kEpsilon` or below.
`avail` is the bound computed once at the head of the enclosing donor scan. -/
def canalScan (src tgt : Nat) (avail : ℚ) :
    List Nat → HourState → ℚ → Bool → List TransferEvent → ScanResult
  | [], st, deficit, did, tr => ⟨st, deficit, did, tr⟩
  | ci :: rest, st, deficit, did, tr =>
    match (st.canals.getD ci default).waterSource with
    | none => canalScan src tgt avail rest st deficit did tr
    | some wi =>
      let wsl := (st.sources.getD wi default).waterLevel
      if wsl ≤ kEpsilon then canalScan src tgt avail rest st deficit did tr
      else
        let t := st.regions.getD tgt default
        let space := t.waterCapacity - t.waterLevel
        let xfer := min (min deficit avail) (min wsl space)
        if xfer ≤ kEpsilon then canalScan src tgt avail rest st deficit did tr
        else
          let ev : TransferEvent := ⟨ci, wi, src, tgt, xfer, avail, deficit, st⟩
          let st' := applyTransfer st ci wi src tgt xfer
          let deficit' := deficit - xfer
          if deficit' ≤ kEpsilon then ⟨st', deficit', true, tr ++ [ev]⟩
          else canalScan src tgt avail rest st' deficit' true (tr ++ [ev])

/-- The bucket `canalMap[src][tgt]` of the source's two-level
`std::unordered_map`: the indices (in canal-list order, as produced by the
`push_back`s of the construction loop) of the canals whose fixed endpoints are
`src → tgt`.  The routing fields of canals are never mutated, so recomputing
the bucket from the canal list passed to `solveProblems` is equivalent to
building the map once up front. -/
def canalIndicesBetween (canals0 : List Canal) (src tgt : Nat) : List Nat :=
  (List.range canals0.length).filter fun i =>
    ((canals0.getD i default).sourceRegion == src) &&
      ((canals0.getD i default).destinationRegion == tgt)

/-- The `for (Region* src : donors)` loop of the source: for each donor in
fixed list order, recompute `safeSurplus` fresh; skip the donor if it is at
most `kEpsilon`, or if no canal connects it to the target (the
`it == canalMap[src].end()` check); otherwise run the canal scan, and stop
scanning donors once the remaining deficit is at most `kEpsilon`. -/
def donorScan (canals0 : List Canal) (tgt : Nat) :
    List Nat → HourState → ℚ → Bool → List TransferEvent → ScanResult
  | [], st, deficit, did, tr => ⟨st, deficit, did, tr⟩
  | d :: ds, st, deficit, did, tr =>
    let avail := safeSurplus (st.regions.getD d default)
    if avail ≤ kEpsilon then donorScan canals0 tgt ds st deficit did tr
    else
      let cis := canalIndicesBetween canals0 d tgt
      if cis.isEmpty then donorScan canals0 tgt ds st deficit did tr
      else
        let r := canalScan d tgt avail cis st deficit did tr
        if r.deficit ≤ kEpsilon then r
        else donorScan canals0 tgt ds r.st r.deficit r.didTransfer r.trace

/-- State of the greedy inner `while` loop: the needs queue, the world, the
`didTransfer` flag, the ghost trace, and the `loops` counter. -/
structure LoopState where
  needs : List Need
  st : HourState
  didTransfer : Bool
  trace : List TransferEvent
  loops : Nat
  deriving DecidableEq, Repr

/-- One iteration of the greedy loop body (lines 90-130 of the source): pop
the highest-deficit need, scan the donors for it, and re-queue the need when
its remaining deficit still exceeds `kEpsilon`.  The `loops` counter is
incremented (the `loops++` of the loop condition). -/
def loopBody (canals0 : List Canal) (donors : List Nat) (ls : LoopState) : LoopState :=
  match popMax ls.needs with
  | none => { ls with loops := ls.loops + 1 }
  | some (curr, rest) =>
    let r := donorScan canals0 curr.region donors ls.st curr.amount ls.didTransfer ls.trace
    let needs' := if kEpsilon < r.deficit then rest ++ [⟨curr.region, r.deficit⟩] else rest
    ⟨needs', r.st, r.didTransfer, r.trace, ls.loops + 1⟩

/-- The greedy inner loop
`while (!needs.empty() && !donors.empty() && loops++ < kMaxLoops)` of the
source.  The recursion is well founded because each iteration increments
`loops`, which the guard bounds by `kMaxLoops`: this is exactly the source's
termination argument. -/
def loopAux (canals0 : List Canal) (donors : List Nat) (ls : LoopState) : LoopState :=
  if h : ls.needs ≠ [] ∧ donors ≠ [] ∧ ls.loops < kMaxLoops then
    loopAux canals0 donors (loopBody canals0 donors ls)
  else ls
termination_by kMaxLoops - ls.loops
decreasing_by
  have hb : (loopBody canals0 donors ls).loops = ls.loops + 1 := by
    unfold loopBody
    cases popMax ls.needs with
    | none => rfl
    | some p => rfl
  rw [hb]
  omega

/-- Result of one scheduler invocation for one hour. -/
structure HourResult where
  st : HourState
  didTransfer : Bool
  trace : List TransferEvent
  deriving DecidableEq, Repr

/-- Phase 1 of the hour (lines 67-70): for every canal,
`if (c->isOpen) c->toggleOpen(false); c->setFlowRate(0.0);`. -/
def resetCanals (canals : List Canal) : List Canal :=
  canals.map fun c => (if c.isOpen then c.toggleOpen false else c).setFlowRate 0

/-- Phase 2, needs side (lines 75-78 of the source), indexing the regions
from `i` upward: every region whose deficit exceeds `kEpsilon`, with its
deficit, in region-enumeration order. -/
def partitionNeedsAux (i : Nat) : List Region → List Need
  | [] => []
  | r :: rs =>
    if kEpsilon < getDeficit r then ⟨i, getDeficit r⟩ :: partitionNeedsAux (i + 1) rs
    else partitionNeedsAux (i + 1) rs

def partitionNeeds (regions : List Region) : List Need :=
  partitionNeedsAux 0 regions

/-- Phase 2, donors side (lines 79-81 of the source), indexing the regions
from `i` upward: every region whose deficit is at most `kEpsilon` and whose
safe surplus exceeds `kEpsilon`, in region-enumeration order (the `else`
branch of the partition pass). -/
def partitionDonorsAux (i : Nat) : List Region → List Nat
  | [] => []
  | r :: rs =>
    if kEpsilon < getDeficit r then partitionDonorsAux (i + 1) rs
    else if kEpsilon < safeSurplus r then i :: partitionDonorsAux (i + 1) rs
    else partitionDonorsAux (i + 1) rs

def partitionDonors (regions : List Region) : List Nat :=
  partitionDonorsAux 0 regions

/-- One hour of allocation (the body of the outer `while` in `solveProblems`,
lines 64-131): reset canals, partition regions into needs and donors, then
run the greedy loop.  `canals0` is the canal list from which the topology
index was built (the canal list passed to `solveProblems`). -/
def runHour (canals0 : List Canal) (st : HourState) : HourResult :=
  let st1 : HourState := { st with canals := resetCanals st.canals }
  let needs := partitionNeeds st1.regions
  let donors := partitionDonors st1.regions
  let f := loopAux canals0 donors ⟨needs, st1, false, [], 0⟩
  ⟨f.st, f.didTransfer, f.trace⟩

/-- The driver-facing state: the world plus the manager's hour counter.
Modelled from the spec: the driver "owns the hour counter" and exposes
`hour`, `SimulationMax`, `solved()` and `nexthour()` (declared in
`acequia_manager.h`, not in the repository sources); `nexthour()` advances
the counter by one and `solved()` is a side-effect-free predicate, modelled
here as an arbitrary boolean function of the world. -/
structure DriverState where
  hst : HourState
  hour : Nat
  deriving DecidableEq, Repr

/-- The outer `while (!manager.solved() && manager.hour < maxHours)` loop of
`solveProblems` (lines 63-137): run one hour; if nothing moved, bail out
without advancing the hour; otherwise `manager.nexthour()` and repeat.  The
recursion is well founded because `hour` strictly increases and is bounded by
`maxHours`. -/
def solveLoop (canals0 : List Canal) (solved : HourState → Bool) (maxHours : Nat)
    (s : DriverState) : DriverState :=
  if h : solved s.hst = false ∧ s.hour < maxHours then
    let r := runHour canals0 s.hst
    if r.didTransfer then
      solveLoop canals0 solved maxHours ⟨r.st, s.hour + 1⟩
    else ⟨r.st, s.hour⟩
  else s
termination_by maxHours - s.hour
decreasing_by
  omega

/-- `solveProblems` from the source: build the topology index from the
manager's canal list (equivalently: look buckets up in the initial canal
list, whose routing fields never change) and run the outer loop. -/
def solveProblems (solved : HourState → Bool) (maxHours : Nat) (s : DriverState) :
    DriverState :=
  solveLoop s.hst.canals solved maxHours s

/-! ### Concrete run: two parallel canals drive the donor below zero

One donor region (level 10, need 0, capacity 10; safe surplus 9) is connected
to one needy region (level 0, need 20, capacity 100) by two canals, each
backed by its own full source.  Because `avail` is computed once per donor
scan (line 97 of the source) and not refreshed between the two canals, both
canals transfer 9, leaving the donor at level -8. -/

def dblSt : HourState :=
  ⟨[⟨10, 0, 10⟩, ⟨0, 20, 100⟩], [⟨100⟩, ⟨100⟩],
   [⟨0, 1, some 0, false, 0⟩, ⟨0, 1, some 1, false, 0⟩]⟩

def dblMid : HourState :=
  ⟨[⟨1, 0, 10⟩, ⟨9, 20, 100⟩], [⟨91⟩, ⟨100⟩],
   [⟨0, 1, some 0, true, 9/3600⟩, ⟨0, 1, some 1, false, 0⟩]⟩

def dblFin : HourState :=
  ⟨[⟨-8, 0, 10⟩, ⟨18, 20, 100⟩], [⟨91⟩, ⟨91⟩],
   [⟨0, 1, some 0, true, 9/3600⟩, ⟨0, 1, some 1, true, 9/3600⟩]⟩

def dblEv1 : TransferEvent := ⟨0, 0, 0, 1, 9, 9, 20, dblSt⟩

def dblEv2 : TransferEvent := ⟨1, 1, 0, 1, 9, 9, 11, dblMid⟩

def dblLS1 : LoopState := ⟨[⟨1, 2⟩], dblFin, true, [dblEv1, dblEv2], 1⟩

/-! ### Concrete run: the simple-transfer scenario of the spec -/

def c4St : HourState :=
  ⟨[⟨20, 10, 30⟩, ⟨2, 10, 20⟩], [⟨100⟩], [⟨0, 1, some 0, false, 0⟩]⟩

def c4Fin : HourState :=
  ⟨[⟨13, 10, 30⟩, ⟨9, 10, 20⟩], [⟨93⟩], [⟨0, 1, some 0, true, 7/3600⟩]⟩

def c4Ev : TransferEvent := ⟨0, 0, 0, 1, 7, 7, 8, c4St⟩

def c4LS1 : LoopState := ⟨[⟨1, 1⟩], c4Fin, true, [c4Ev], 1⟩

/-! ### Concrete run: the greedy-priority scenario of the spec -/

def c5St : HourState :=
  ⟨[⟨9, 0, 10⟩, ⟨0, 10, 20⟩, ⟨0, 5, 20⟩], [⟨100⟩, ⟨100⟩],
   [⟨0, 1, some 0, false, 0⟩, ⟨0, 2, some 1, false, 0⟩]⟩

def c5Fin : HourState :=
  ⟨[⟨1, 0, 10⟩, ⟨8, 10, 20⟩, ⟨0, 5, 20⟩], [⟨92⟩, ⟨100⟩],
   [⟨0, 1, some 0, true, 8/3600⟩, ⟨0, 2, some 1, false, 0⟩]⟩

def c5Ev : TransferEvent := ⟨0, 0, 0, 1, 8, 8, 10, c5St⟩

def c5LS1 : LoopState := ⟨[⟨2, 5⟩, ⟨1, 2⟩], c5Fin, true, [c5Ev], 1⟩

def c5LS2 : LoopState := ⟨[⟨1, 2⟩, ⟨2, 5⟩], c5Fin, true, [c5Ev], 2⟩

/-! ### C8: water sources never go negative -/

def sourcesNonneg (st : HourState) : Prop := ∀ w ∈ st.sources, 0 ≤ w.waterLevel

/-! ### C10: the frame condition -/

/-- The static data of the world: region needs and capacities, canal
endpoints and water-source references, and the sizes of all three
collections.  `sameStatics st st'` says `st'` agrees with `st` on all of it. -/
def sameStatics (st st' : HourState) : Prop :=
  st'.regions.length = st.regions.length ∧
  st'.sources.length = st.sources.length ∧
  st'.canals.length = st.canals.length ∧
  (∀ i, (st'.regions.getD i default).waterNeed
      = (st.regions.getD i default).waterNeed) ∧
  (∀ i, (st'.regions.getD i default).waterCapacity
      = (st.regions.getD i default).waterCapacity) ∧
  (∀ i, (st'.canals.getD i default).sourceRegion
      = (st.canals.getD i default).sourceRegion) ∧
  (∀ i, (st'.canals.getD i default).destinationRegion
      = (st.canals.getD i default).destinationRegion) ∧
  (∀ i, (st'.canals.getD i default).waterSource
      = (st.canals.getD i default).waterSource)

/-! ### C2: what an executed transfer's amount actually is -/

/-- The amount of an executed transfer equals the minimum of the remaining
deficit just before it, the `avail` bound in force (computed at the head of
the donor scan, line 97 of the source), and — both read from the state at the
moment of the transfer — the water source's level and the target's headroom. -/
def eventAmountSpec (e : TransferEvent) : Prop :=
  e.amount = min (min e.deficitBefore e.availUsed)
    (min ((e.pre.sources.getD e.wsrc default).waterLevel)
      ((e.pre.regions.getD e.target default).waterCapacity
        - (e.pre.regions.getD e.target default).waterLevel))

/-- Monotone evolution of levels over an hour, relative to a fixed donor
list: sources only lose water, donors only lose water, and non-donors
(targets in particular) only gain water. -/
def evolL (donors : List Nat) (st st' : HourState) : Prop :=
  (∀ i, (st'.sources.getD i default).waterLevel
      ≤ (st.sources.getD i default).waterLevel) ∧
  (∀ i, i ∈ donors → (st'.regions.getD i default).waterLevel
      ≤ (st.regions.getD i default).waterLevel) ∧
  (∀ i, i ∉ donors → (st.regions.getD i default).waterLevel
      ≤ (st'.regions.getD i default).waterLevel)

/-! ### C9 infrastructure: dead canals stay dead -/

/-- The water source used by the event is (still) the one its canal refers
to in the current state. -/
def evWs (st : HourState) (e : TransferEvent) : Prop :=
  (st.canals.getD e.canal default).waterSource = some e.wsrc

/-- The event's water source is depleted (at most ε). -/
def wsLow (st : HourState) (e : TransferEvent) : Prop :=
  (st.sources.getD e.wsrc default).waterLevel ≤ kEpsilon

/-- The event's target region is full up to ε. -/
def headLow (st : HourState) (e : TransferEvent) : Prop :=
  (st.regions.getD e.target default).waterCapacity
    - (st.regions.getD e.target default).waterLevel ≤ kEpsilon

/-- The event's donor region has no usable surplus left. -/
def surplusLow (st : HourState) (e : TransferEvent) : Prop :=
  safeSurplus (st.regions.getD e.donor default) ≤ kEpsilon

def dead12 (st : HourState) (e : TransferEvent) : Prop :=
  wsLow st e ∨ headLow st e

def dead123 (st : HourState) (e : TransferEvent) : Prop :=
  wsLow st e ∨ headLow st e ∨ surplusLow st e

/-! ### C9: the master donor-scan lemma -/

/-- The event's canal, looked up in the canal list the topology index was
built from, really goes from the event's donor to the event's target. -/
def evRouting (canals0 : List Canal) (e : TransferEvent) : Prop :=
  (canals0.getD e.canal default).sourceRegion = e.donor ∧
  (canals0.getD e.canal default).destinationRegion = e.target

/-! ### C9: the loop invariant and the conclusion -/

/-- Invariant of the greedy loop: queued needs are never donors and are
pairwise distinct; trace events keep their routing, water-source binding and
donor/target classification; every traced canal is dead or its target is out
of the queue for good; and no canal is traced twice. -/
def LoopInv (canals0 : List Canal) (donors : List Nat) (ls : LoopState) : Prop :=
  (∀ n ∈ ls.needs, n.region ∉ donors) ∧
  (ls.needs.map Need.region).Nodup ∧
  (∀ e ∈ ls.trace, evRouting canals0 e) ∧
  (∀ e ∈ ls.trace, evWs ls.st e) ∧
  (∀ e ∈ ls.trace, e.donor ∈ donors) ∧
  (∀ e ∈ ls.trace, e.target ∉ donors) ∧
  (∀ e ∈ ls.trace, dead123 ls.st e ∨ e.target ∉ ls.needs.map Need.region) ∧
  (ls.trace.map TransferEvent.canal).Nodup

/-! ### Unfolding and iteration lemmas for the greedy loop -/

theorem loopBody_loops (canals0 : List Canal) (donors : List Nat) (ls : LoopState) :
    (loopBody canals0 donors ls).loops = ls.loops + 1 := by
  unfold loopBody
  cases popMax ls.needs with
  | none => rfl
  | some p => rfl

theorem loopAux_step (c0 : List Canal) (d : List Nat) (ls : LoopState)
    (h1 : ls.needs ≠ []) (h2 : d ≠ []) (h3 : ls.loops < kMaxLoops) :
    loopAux c0 d ls = loopAux c0 d (loopBody c0 d ls) := by
  rw [loopAux]
  exact dif_pos ⟨h1, h2, h3⟩

theorem loopAux_exit (c0 : List Canal) (d : List Nat) (ls : LoopState)
    (h : ¬ (ls.needs ≠ [] ∧ d ≠ [] ∧ ls.loops < kMaxLoops)) :
    loopAux c0 d ls = ls := by
  rw [loopAux]
  exact dif_neg h

/-- The loop body does not read the iteration counter; it only increments it. -/
theorem loopBody_loops_shift (c0 : List Canal) (d : List Nat) (ls : LoopState) (x : Nat) :
    loopBody c0 d { ls with loops := x } = { loopBody c0 d ls with loops := x + 1 } := by
  unfold loopBody
  cases popMax ls.needs with
  | none => rfl
  | some p => rfl

/-- Once the loop state is a fixed point of the body (apart from the counter),
the loop keeps thrashing until the counter reaches the `kMaxLoops` cap. -/
theorem loopAux_fix (c0 : List Canal) (d : List Nat) (k : Nat) :
    ∀ ls : LoopState,
      loopBody c0 d ls = { ls with loops := ls.loops + 1 } →
      ls.needs ≠ [] → d ≠ [] → ls.loops + k = kMaxLoops →
      loopAux c0 d ls = { ls with loops := kMaxLoops } := by
  induction k with
  | zero =>
    intro ls hfix hn hd hl
    have hls : ls = { ls with loops := kMaxLoops } := by
      cases ls
      simp_all
    rw [loopAux_exit c0 d ls (fun hc => absurd hc.2.2 (by omega))]
    exact hls
  | succ k ih =>
    intro ls hfix hn hd hl
    rw [loopAux_step c0 d ls hn hd (by omega), hfix]
    have h2 : loopBody c0 d { ls with loops := ls.loops + 1 } =
        { ls with loops := ls.loops + 1 + 1 } := by
      rw [loopBody_loops_shift, hfix]
    have := ih { ls with loops := ls.loops + 1 } h2 hn hd (by simpa using by omega)
    simpa using this

/-- Any property of the loop state preserved by the loop body is preserved by
the whole greedy loop. -/
theorem loopAux_preserves (c0 : List Canal) (d : List Nat) (P : LoopState → Prop)
    (hP : ∀ ls, P ls → P (loopBody c0 d ls)) :
    ∀ (n : Nat) (ls : LoopState), kMaxLoops - ls.loops ≤ n → P ls → P (loopAux c0 d ls) := by
  intro n
  induction n with
  | zero =>
    intro ls hn hp
    rw [loopAux]
    split
    · next hc => exact absurd hc.2.2 (by omega)
    · exact hp
  | succ n ih =>
    intro ls hn hp
    rw [loopAux]
    split
    · next hc =>
      exact ih (loopBody c0 d ls) (by rw [loopBody_loops]; omega) (hP ls hp)
    · exact hp

theorem loopAux_preserves' (c0 : List Canal) (d : List Nat) (P : LoopState → Prop)
    (hP : ∀ ls, P ls → P (loopBody c0 d ls)) (ls : LoopState) (h : P ls) :
    P (loopAux c0 d ls) :=
  loopAux_preserves c0 d P hP kMaxLoops ls (by omega) h

/-- The final value of the `loops` counter never exceeds the `kMaxLoops` cap. -/
theorem loopAux_loops_le (c0 : List Canal) (d : List Nat) :
    ∀ (n : Nat) (ls : LoopState), kMaxLoops - ls.loops ≤ n →
      ls.loops ≤ kMaxLoops → (loopAux c0 d ls).loops ≤ kMaxLoops := by
  intro n
  induction n with
  | zero =>
    intro ls hn hle
    rw [loopAux]
    split
    · next hc => exact absurd hc.2.2 (by omega)
    · exact hle
  | succ n ih =>
    intro ls hn hle
    rw [loopAux]
    split
    · next hc =>
      exact ih (loopBody c0 d ls) (by rw [loopBody_loops]; omega)
        (by rw [loopBody_loops]; omega)
    · exact hle

/-- `runHour` re-expressed through `loopAux` (the let-chain of its definition,
spelled out; `rfl` because the reset does not touch the region list). -/
theorem runHour_def (canals0 : List Canal) (st : HourState) :
    runHour canals0 st =
      (fun f => (⟨f.st, f.didTransfer, f.trace⟩ : HourResult))
        (loopAux canals0 (partitionDonors st.regions)
          ⟨partitionNeeds st.regions, { st with canals := resetCanals st.canals },
           false, [], 0⟩) := rfl

/-- Any property of the world preserved by one hour's run is preserved by the
whole outer driver loop. -/
theorem solveLoop_preserves (c0 : List Canal) (solved : HourState → Bool) (maxH : Nat)
    (P : HourState → Prop) (hP : ∀ st, P st → P (runHour c0 st).st) :
    ∀ (n : Nat) (s : DriverState), maxH - s.hour ≤ n → P s.hst →
      P (solveLoop c0 solved maxH s).hst := by
  intro n
  induction n with
  | zero =>
    intro s hn hp
    rw [solveLoop]
    split
    · next hc =>
      dsimp only
      split
      · exact absurd hc.2 (by omega)
      · exact hP s.hst hp
    · exact hp
  | succ n ih =>
    intro s hn hp
    rw [solveLoop]
    split
    · next hc =>
      dsimp only
      split
      · exact ih ⟨(runHour c0 s.hst).st, s.hour + 1⟩ (by simp; omega) (hP s.hst hp)
      · exact hP s.hst hp
    · exact hp

/-! ### Small list helpers -/

theorem getD_set_self {α : Type} (l : List α) (i : Nat) (a d : α) (h : i < l.length) :
    (l.set i a).getD i d = a := by
  rw [List.getD_eq_getElem?_getD, List.getElem?_set_self h]
  rfl

theorem getD_set_ne {α : Type} (l : List α) (i j : Nat) (a d : α) (h : i ≠ j) :
    (l.set i a).getD j d = l.getD j d := by
  rw [List.getD_eq_getElem?_getD, List.getElem?_set_ne h, ← List.getD_eq_getElem?_getD]

/-! ### The priority queue pops a maximal element -/

theorem popMax_mem : ∀ (l : List Need) (m : Need) (rest : List Need),
    popMax l = some (m, rest) → m ∈ l := by
  intro l
  induction l with
  | nil => intro m rest h; cases h
  | cons n ns ih =>
    intro m rest h
    simp only [popMax] at h
    cases hpm : popMax ns with
    | none =>
      rw [hpm] at h
      cases h
      exact List.mem_cons_self n ns
    | some p =>
      obtain ⟨m', rest'⟩ := p
      rw [hpm] at h
      dsimp only at h
      by_cases hlt : n.amount < m'.amount
      · rw [if_pos hlt] at h
        simp only [Option.some.injEq, Prod.mk.injEq] at h
        obtain ⟨h1, h2⟩ := h
        subst h1
        exact List.mem_cons_of_mem n (ih _ rest' hpm)
      · rw [if_neg hlt] at h
        cases h
        exact List.mem_cons_self n ns

/-- When one queued need has a strictly larger amount than every other queued
need, it is the one popped. -/
theorem popMax_strict (l : List Need) (x : Need) (hx : x ∈ l)
    (hmax : ∀ y ∈ l, y ≠ x → y.amount < x.amount) :
    (popMax l).map Prod.fst = some x := by
  induction l with
  | nil => cases hx
  | cons n ns ih =>
    by_cases hxn : n = x
    · subst hxn
      simp only [popMax]
      cases hpm : popMax ns with
      | none => rfl
      | some p =>
        obtain ⟨m, rest⟩ := p
        have hm : m ∈ ns := popMax_mem ns m rest hpm
        have hnm : ¬ (n.amount < m.amount) := by
          by_cases hmn : m = n
          · rw [hmn]; exact lt_irrefl _
          · exact lt_asymm (hmax m (List.mem_cons_of_mem n hm) hmn)
        dsimp only
        rw [if_neg hnm]
        rfl
    · have hxns : x ∈ ns := by
        rcases List.mem_cons.mp hx with he | hm
        · exact absurd he.symm hxn
        · exact hm
      have hns : (popMax ns).map Prod.fst = some x :=
        ih hxns (fun y hy hne => hmax y (List.mem_cons_of_mem n hy) hne)
      simp only [popMax]
      cases hpm : popMax ns with
      | none => rw [hpm] at hns; cases hns
      | some p =>
        obtain ⟨m, rest⟩ := p
        rw [hpm] at hns
        have hmx : m = x := by
          simpa using hns
        subst hmx
        dsimp only
        rw [if_pos (hmax n (List.mem_cons_self n ns) hxn)]
        rfl

theorem dbl_partN : partitionNeeds dblSt.regions = [⟨1, 20⟩] := by
  norm_num [partitionNeeds, partitionNeedsAux, getDeficit, kEpsilon, dblSt]

theorem dbl_partD : partitionDonors dblSt.regions = [0] := by
  norm_num [partitionDonors, partitionDonorsAux, getDeficit, safeSurplus,
    kEpsilon, kSafetyMargin, dblSt]

theorem dbl_reset : resetCanals dblSt.canals = dblSt.canals := by
  norm_num [resetCanals, dblSt, Canal.setFlowRate, Canal.toggleOpen]

theorem dbl_body1 : loopBody dblSt.canals [0]
    ⟨[⟨1, 20⟩], dblSt, false, [], 0⟩ = dblLS1 := by
  norm_num [loopBody, donorScan, canalScan, applyTransfer, popMax,
    canalIndicesBetween, safeSurplus, getDeficit, kEpsilon, kSafetyMargin,
    Region.updateWaterLevel, WaterSource.updateWaterLevel, Canal.toggleOpen,
    Canal.setFlowRate, List.set, List.getD, List.range_succ, dblSt, dblLS1, dblFin, dblMid, dblEv1, dblEv2]

theorem dbl_fixbody : loopBody dblSt.canals [0] dblLS1 =
    { dblLS1 with loops := dblLS1.loops + 1 } := by
  norm_num [loopBody, donorScan, canalScan, applyTransfer, popMax,
    canalIndicesBetween, safeSurplus, getDeficit, kEpsilon, kSafetyMargin,
    Region.updateWaterLevel, WaterSource.updateWaterLevel, Canal.toggleOpen,
    Canal.setFlowRate, List.set, List.getD, List.range_succ, dblSt, dblLS1, dblFin, dblMid, dblEv1, dblEv2]

theorem dbl_run_eq :
    runHour dblSt.canals dblSt = ⟨dblFin, true, [dblEv1, dblEv2]⟩ := by
  rw [runHour_def, dbl_partN, dbl_partD, dbl_reset]
  rw [show ({ dblSt with canals := dblSt.canals } : HourState) = dblSt from rfl]
  rw [loopAux_step _ _ _ (by simp) (by simp) (by norm_num [kMaxLoops])]
  rw [dbl_body1]
  rw [loopAux_fix dblSt.canals [0] 999 dblLS1 dbl_fixbody (by simp [dblLS1])
      (by simp) (by norm_num [dblLS1, kMaxLoops])]
  rfl

theorem c4_partN : partitionNeeds c4St.regions = [⟨1, 8⟩] := by
  norm_num [partitionNeeds, partitionNeedsAux, getDeficit, kEpsilon, c4St]

theorem c4_partD : partitionDonors c4St.regions = [0] := by
  norm_num [partitionDonors, partitionDonorsAux, getDeficit, safeSurplus,
    kEpsilon, kSafetyMargin, c4St]

theorem c4_reset : resetCanals c4St.canals = c4St.canals := by
  norm_num [resetCanals, c4St, Canal.setFlowRate, Canal.toggleOpen]

theorem c4_body1 : loopBody c4St.canals [0]
    ⟨[⟨1, 8⟩], c4St, false, [], 0⟩ = c4LS1 := by
  norm_num [loopBody, donorScan, canalScan, applyTransfer, popMax,
    canalIndicesBetween, safeSurplus, getDeficit, kEpsilon, kSafetyMargin,
    Region.updateWaterLevel, WaterSource.updateWaterLevel, Canal.toggleOpen,
    Canal.setFlowRate, List.set, List.getD, List.range_succ, c4St, c4LS1, c4Fin, c4Ev]

theorem c4_fixbody : loopBody c4St.canals [0] c4LS1 =
    { c4LS1 with loops := c4LS1.loops + 1 } := by
  norm_num [loopBody, donorScan, canalScan, applyTransfer, popMax,
    canalIndicesBetween, safeSurplus, getDeficit, kEpsilon, kSafetyMargin,
    Region.updateWaterLevel, WaterSource.updateWaterLevel, Canal.toggleOpen,
    Canal.setFlowRate, List.set, List.getD, List.range_succ, c4St, c4LS1, c4Fin, c4Ev]

theorem c4_run_eq : runHour c4St.canals c4St = ⟨c4Fin, true, [c4Ev]⟩ := by
  rw [runHour_def, c4_partN, c4_partD, c4_reset]
  rw [show ({ c4St with canals := c4St.canals } : HourState) = c4St from rfl]
  rw [loopAux_step _ _ _ (by simp) (by simp) (by norm_num [kMaxLoops])]
  rw [c4_body1]
  rw [loopAux_fix c4St.canals [0] 999 c4LS1 c4_fixbody (by simp [c4LS1])
      (by simp) (by norm_num [c4LS1, kMaxLoops])]
  rfl

theorem c5_partN : partitionNeeds c5St.regions = [⟨1, 10⟩, ⟨2, 5⟩] := by
  norm_num [partitionNeeds, partitionNeedsAux, getDeficit, kEpsilon, c5St]

theorem c5_partD : partitionDonors c5St.regions = [0] := by
  norm_num [partitionDonors, partitionDonorsAux, getDeficit, safeSurplus,
    kEpsilon, kSafetyMargin, c5St]

theorem c5_reset : resetCanals c5St.canals = c5St.canals := by
  norm_num [resetCanals, c5St, Canal.setFlowRate, Canal.toggleOpen]

theorem c5_body1 : loopBody c5St.canals [0]
    ⟨[⟨1, 10⟩, ⟨2, 5⟩], c5St, false, [], 0⟩ = c5LS1 := by
  norm_num [loopBody, donorScan, canalScan, applyTransfer, popMax,
    canalIndicesBetween, safeSurplus, getDeficit, kEpsilon, kSafetyMargin,
    Region.updateWaterLevel, WaterSource.updateWaterLevel, Canal.toggleOpen,
    Canal.setFlowRate, List.set, List.getD, List.range_succ, c5St, c5LS1, c5Fin, c5Ev]

theorem c5_body2 : loopBody c5St.canals [0] c5LS1 = c5LS2 := by
  norm_num [loopBody, donorScan, canalScan, applyTransfer, popMax,
    canalIndicesBetween, safeSurplus, getDeficit, kEpsilon, kSafetyMargin,
    Region.updateWaterLevel, WaterSource.updateWaterLevel, Canal.toggleOpen,
    Canal.setFlowRate, List.set, List.getD, List.range_succ, c5St, c5LS1, c5LS2, c5Fin, c5Ev]

theorem c5_fixbody : loopBody c5St.canals [0] c5LS2 =
    { c5LS2 with loops := c5LS2.loops + 1 } := by
  norm_num [loopBody, donorScan, canalScan, applyTransfer, popMax,
    canalIndicesBetween, safeSurplus, getDeficit, kEpsilon, kSafetyMargin,
    Region.updateWaterLevel, WaterSource.updateWaterLevel, Canal.toggleOpen,
    Canal.setFlowRate, List.set, List.getD, List.range_succ, c5St, c5LS2, c5Fin, c5Ev]

theorem c5_run_eq : runHour c5St.canals c5St = ⟨c5Fin, true, [c5Ev]⟩ := by
  rw [runHour_def, c5_partN, c5_partD, c5_reset]
  rw [show ({ c5St with canals := c5St.canals } : HourState) = c5St from rfl]
  rw [loopAux_step _ _ _ (by simp) (by simp) (by norm_num [kMaxLoops])]
  rw [c5_body1]
  rw [loopAux_step _ _ _ (by simp [c5LS1]) (by simp) (by norm_num [c5LS1, kMaxLoops])]
  rw [c5_body2]
  rw [loopAux_fix c5St.canals [0] 998 c5LS2 c5_fixbody (by simp [c5LS2])
      (by simp) (by norm_num [c5LS2, kMaxLoops])]
  rfl

/-- An hour on an empty world does nothing and reports no transfer. -/
theorem runHour_nil : runHour ([] : List Canal) ⟨[], [], []⟩ = ⟨⟨[], [], []⟩, false, []⟩ := by
  rw [runHour_def]
  rw [loopAux_exit _ _ _ (fun hc => hc.1 rfl)]
  rfl

/-! ### Claim theorems (first batch) -/

/-- C1 (code bug evaluation): the capacity-bound invariant `0 ≤ level` fails
on the code.  On the in-bounds input `dblSt` (all region levels within
`[0, capacity]`, all needs non-negative, all sources non-negative), running
one hour of allocation leaves the donor region at level `-8 < 0`: the donor
scan caches `avail` once (line 97) and both parallel canals each move 9.  The
spec's invariant "for all regions, for all hours, `0 ≤ level ≤ capacity`
after every transfer" is therefore violated by the code. -/
theorem c1_invariant_fails_on_dbl :
    (∀ r ∈ dblSt.regions,
        0 ≤ r.waterLevel ∧ r.waterLevel ≤ r.waterCapacity ∧
        0 ≤ r.waterNeed ∧ 0 < r.waterCapacity) ∧
    (∀ w ∈ dblSt.sources, 0 ≤ w.waterLevel) ∧
    ((runHour dblSt.canals dblSt).st.regions.getD 0 default).waterLevel = -8 ∧
    ¬ (0 ≤ ((runHour dblSt.canals dblSt).st.regions.getD 0 default).waterLevel) := by
  refine ⟨?_, ?_, ?_, ?_⟩
  · simp only [dblSt]
    intro r hr
    fin_cases hr <;> norm_num
  · simp only [dblSt]
    intro w hw
    fin_cases hw <;> norm_num
  · rw [dbl_run_eq]
    norm_num [dblFin, List.getD]
  · rw [dbl_run_eq]
    norm_num [dblFin, List.getD]

/-- C3: conservation of a single executed transfer (lines 114-118 of the
source).  Transferring `a` along a canal decreases the donor's level by
exactly `a`, increases the target's level by exactly `a`, and decreases the
associated water source's level by exactly `a`. -/
theorem c3_transfer_conservation (st : HourState) (ci wi src tgt : Nat) (a : ℚ)
    (hne : src ≠ tgt) (hsrc : src < st.regions.length)
    (htgt : tgt < st.regions.length) (hwi : wi < st.sources.length) :
    ((applyTransfer st ci wi src tgt a).regions.getD src default).waterLevel
        = (st.regions.getD src default).waterLevel - a ∧
    ((applyTransfer st ci wi src tgt a).regions.getD tgt default).waterLevel
        = (st.regions.getD tgt default).waterLevel + a ∧
    ((applyTransfer st ci wi src tgt a).sources.getD wi default).waterLevel
        = (st.sources.getD wi default).waterLevel - a := by
  unfold applyTransfer
  refine ⟨?_, ?_, ?_⟩
  · dsimp only
    rw [getD_set_ne _ tgt src _ _ (Ne.symm hne),
        getD_set_self _ src _ _ hsrc]
    show (st.regions.getD src default).waterLevel + -a = _
    ring
  · dsimp only
    rw [getD_set_self _ tgt _ _ (by rw [List.length_set]; exact htgt),
        getD_set_ne _ src tgt _ _ hne]
    rfl
  · dsimp only
    rw [getD_set_self _ wi _ _ hwi]
    show (st.sources.getD wi default).waterLevel + -a = _
    ring

/-- Witness for C3 at a concrete input. -/
theorem c3_transfer_conservation_witness :
    ((applyTransfer ⟨[⟨5, 0, 9⟩, ⟨1, 4, 9⟩], [⟨6⟩], [⟨0, 1, some 0, false, 0⟩]⟩
        0 0 0 1 2).regions.getD 0 default).waterLevel = 5 - 2 ∧
    ((applyTransfer ⟨[⟨5, 0, 9⟩, ⟨1, 4, 9⟩], [⟨6⟩], [⟨0, 1, some 0, false, 0⟩]⟩
        0 0 0 1 2).regions.getD 1 default).waterLevel = 1 + 2 ∧
    ((applyTransfer ⟨[⟨5, 0, 9⟩, ⟨1, 4, 9⟩], [⟨6⟩], [⟨0, 1, some 0, false, 0⟩]⟩
        0 0 0 1 2).sources.getD 0 default).waterLevel = 6 - 2 :=
  c3_transfer_conservation ⟨[⟨5, 0, 9⟩, ⟨1, 4, 9⟩], [⟨6⟩], [⟨0, 1, some 0, false, 0⟩]⟩
    0 0 0 1 2 (by decide) (by decide) (by decide) (by decide)

/-- C4: the simple-transfer scenario.  With Region A (level 20, need 10,
capacity 30), Region B (level 2, need 10, capacity 20), one canal A→B backed
by a source at level 100 and margin 0.10, one hour of allocation performs
exactly one transfer of 7, leaving A at 13, B at 9, the source at 93, and the
canal open with flow rate 7/3600. -/
theorem c4_simple_transfer :
    (runHour c4St.canals c4St).trace.map TransferEvent.amount = [7] ∧
    ((runHour c4St.canals c4St).st.regions.getD 0 default).waterLevel = 13 ∧
    ((runHour c4St.canals c4St).st.regions.getD 1 default).waterLevel = 9 ∧
    ((runHour c4St.canals c4St).st.sources.getD 0 default).waterLevel = 93 ∧
    ((runHour c4St.canals c4St).st.canals.getD 0 default).isOpen = true ∧
    ((runHour c4St.canals c4St).st.canals.getD 0 default).flowRate = 7 / 3600 := by
  simp only [c4_run_eq]
  norm_num [c4Fin, c4Ev, List.getD]

/-- C5: greedy priority.  First, in general, the need popped from the queue
is the one with the strictly largest remaining deficit whenever there is a
strict maximum.  Second, the spec's concrete scenario: deficits 10 and 5, a
single donor with surplus 8 connected to both; the deficit-10 region is
served first and receives min(10, 8) = 8, and the deficit-5 region receives
nothing that hour because the donor's surplus is then below ε. -/
theorem c5_greedy_priority :
    (∀ (l : List Need) (x : Need), x ∈ l →
        (∀ y ∈ l, y ≠ x → y.amount < x.amount) →
        (popMax l).map Prod.fst = some x) ∧
    (runHour c5St.canals c5St).trace.map (fun e => (e.target, e.amount)) = [(1, 8)] ∧
    ((runHour c5St.canals c5St).st.regions.getD 1 default).waterLevel = 8 ∧
    ((runHour c5St.canals c5St).st.regions.getD 2 default).waterLevel = 0 ∧
    safeSurplus ((runHour c5St.canals c5St).st.regions.getD 0 default) ≤ kEpsilon := by
  refine ⟨popMax_strict, ?_⟩
  simp only [c5_run_eq]
  norm_num [c5Fin, c5Ev, List.getD, safeSurplus, kEpsilon, kSafetyMargin]

/-- Witness for C5's universally quantified part at a concrete queue. -/
theorem c5_greedy_priority_witness :
    (popMax [⟨1, 10⟩, ⟨2, 5⟩]).map Prod.fst = some ⟨1, 10⟩ :=
  c5_greedy_priority.1 [⟨1, 10⟩, ⟨2, 5⟩] ⟨1, 10⟩ (by simp)
    (by
      intro y hy hne
      rcases List.mem_cons.mp hy with h | h
      · exact absurd h hne
      · rcases List.mem_cons.mp h with h2 | h2
        · subst h2
          norm_num
        · cases h2)

/-- C6: termination of the greedy transfer loop.  For every topology (any
canal list, donor list, needs queue and world state), the loop executes at
most `kMaxLoops = 1000` iterations: the `loops` counter starts at 0, is
incremented exactly once per iteration (`loopBody_loops`), and its final
value never exceeds the cap.  Totality of `loopAux` itself (no infinite
loop) is exactly its well-founded recursion on `kMaxLoops - loops`. -/
theorem c6_loop_iteration_cap (canals0 : List Canal) (donors : List Nat)
    (needs : List Need) (st : HourState) :
    (loopAux canals0 donors ⟨needs, st, false, [], 0⟩).loops ≤ kMaxLoops :=
  loopAux_loops_le canals0 donors kMaxLoops ⟨needs, st, false, [], 0⟩
    (by show kMaxLoops - 0 ≤ kMaxLoops; omega) (by show 0 ≤ kMaxLoops; omega)

/-- C7: an unproductive hour stops the scheduler.  If the driver would run an
hour (not solved, hour budget remaining) and that hour performs zero
transfers, the outer loop returns immediately after it: the final driver
state carries that hour's world and the UNCHANGED hour counter, and no
further hour is attempted. -/
theorem c7_no_progress_stops (canals0 : List Canal) (solved : HourState → Bool)
    (maxHours : Nat) (s : DriverState)
    (hs : solved s.hst = false) (hh : s.hour < maxHours)
    (hnp : (runHour canals0 s.hst).didTransfer = false) :
    solveLoop canals0 solved maxHours s = ⟨(runHour canals0 s.hst).st, s.hour⟩ := by
  rw [solveLoop, dif_pos ⟨hs, hh⟩]
  dsimp only
  rw [if_neg (by rw [hnp]; exact Bool.false_ne_true)]

/-- Witness for C7 at a concrete input: an empty world, which produces zero
transfers, leaves the hour counter at 0. -/
theorem c7_no_progress_stops_witness :
    solveLoop [] (fun _ => false) 1 ⟨⟨[], [], []⟩, 0⟩ = ⟨⟨[], [], []⟩, 0⟩ := by
  have h := c7_no_progress_stops [] (fun _ => false) 1 ⟨⟨[], [], []⟩, 0⟩ rfl
    (by show (0 : Nat) < 1; omega) (by rw [runHour_nil])
  rw [h, runHour_nil]

theorem applyTransfer_sourcesNonneg (st : HourState) (ci wi src tgt : Nat) (xfer : ℚ)
    (h : sourcesNonneg st) (hx : xfer ≤ (st.sources.getD wi default).waterLevel) :
    sourcesNonneg (applyTransfer st ci wi src tgt xfer) := by
  intro w hw
  rcases List.mem_or_eq_of_mem_set hw with hmem | heq
  · exact h w hmem
  · subst heq
    show 0 ≤ (st.sources.getD wi default).waterLevel + -xfer
    linarith

theorem canalScan_sourcesNonneg (src tgt : Nat) (avail : ℚ) :
    ∀ (cis : List Nat) (st : HourState) (deficit : ℚ) (did : Bool)
      (tr : List TransferEvent), sourcesNonneg st →
      sourcesNonneg (canalScan src tgt avail cis st deficit did tr).st := by
  intro cis
  induction cis with
  | nil => intro st deficit did tr h; exact h
  | cons ci rest ih =>
    intro st deficit did tr h
    simp only [canalScan]
    split
    · exact ih st deficit did tr h
    · next wi hws =>
      split
      · exact ih st deficit did tr h
      · next hwsl =>
        split
        · exact ih st deficit did tr h
        · next hxfer =>
          have hx : min (min deficit avail)
              (min ((st.sources.getD wi default).waterLevel)
                ((st.regions.getD tgt default).waterCapacity
                  - (st.regions.getD tgt default).waterLevel))
              ≤ (st.sources.getD wi default).waterLevel :=
            le_trans (min_le_right _ _) (min_le_left _ _)
          split
          · exact applyTransfer_sourcesNonneg st ci wi src tgt _ h hx
          · exact ih _ _ _ _ (applyTransfer_sourcesNonneg st ci wi src tgt _ h hx)

theorem donorScan_sourcesNonneg (canals0 : List Canal) (tgt : Nat) :
    ∀ (ds : List Nat) (st : HourState) (deficit : ℚ) (did : Bool)
      (tr : List TransferEvent), sourcesNonneg st →
      sourcesNonneg (donorScan canals0 tgt ds st deficit did tr).st := by
  intro ds
  induction ds with
  | nil => intro st deficit did tr h; exact h
  | cons d rest ih =>
    intro st deficit did tr h
    simp only [donorScan]
    split
    · exact ih st deficit did tr h
    · split
      · exact ih st deficit did tr h
      · split
        · exact canalScan_sourcesNonneg _ _ _ _ st deficit did tr h
        · exact ih _ _ _ _ (canalScan_sourcesNonneg _ _ _ _ st deficit did tr h)

theorem loopBody_sourcesNonneg (c0 : List Canal) (d : List Nat) (ls : LoopState)
    (h : sourcesNonneg ls.st) : sourcesNonneg (loopBody c0 d ls).st := by
  unfold loopBody
  split
  · exact h
  · exact donorScan_sourcesNonneg c0 _ d ls.st _ ls.didTransfer ls.trace h

theorem runHour_sourcesNonneg (canals0 : List Canal) (st : HourState)
    (h : sourcesNonneg st) : sourcesNonneg (runHour canals0 st).st := by
  rw [runHour_def]
  exact loopAux_preserves' canals0 _ (fun ls => sourcesNonneg ls.st)
    (fun ls hl => loopBody_sourcesNonneg _ _ ls hl) _ h

theorem solveLoop_sourcesNonneg (c0 : List Canal) (solved : HourState → Bool)
    (maxH : Nat) (s : DriverState) (h : sourcesNonneg s.hst) :
    sourcesNonneg (solveLoop c0 solved maxH s).hst :=
  solveLoop_preserves c0 solved maxH sourcesNonneg
    (fun st hst => runHour_sourcesNonneg c0 st hst) maxH s (by omega) h

/-- C8: non-negative reservoirs.  First conjunct: a single executed transfer
(which is always capped by the current level of the source it draws from)
keeps every source non-negative.  Second and third conjuncts: a whole hour of
allocation, and a whole driver run, keep every source non-negative; since
every intermediate state of the greedy loop is itself reachable this way,
every source's level stays at least 0 after every executed transfer. -/
theorem c8_sources_never_negative :
    (∀ (st : HourState) (ci wi src tgt : Nat) (xfer : ℚ),
        sourcesNonneg st → xfer ≤ (st.sources.getD wi default).waterLevel →
        sourcesNonneg (applyTransfer st ci wi src tgt xfer)) ∧
    (∀ (canals0 : List Canal) (st : HourState), sourcesNonneg st →
        sourcesNonneg (runHour canals0 st).st) ∧
    (∀ (canals0 : List Canal) (solved : HourState → Bool) (maxHours : Nat)
        (s : DriverState), sourcesNonneg s.hst →
        sourcesNonneg (solveLoop canals0 solved maxHours s).hst) :=
  ⟨applyTransfer_sourcesNonneg, runHour_sourcesNonneg, solveLoop_sourcesNonneg⟩

/-- Witness for C8: on the simple-transfer scenario the source stays at
93 ≥ 0 after the hour. -/
theorem c8_sources_never_negative_witness :
    0 ≤ ((runHour c4St.canals c4St).st.sources.getD 0 default).waterLevel := by
  have h := c8_sources_never_negative.2.1 c4St.canals c4St
    (by
      simp only [c4St]
      intro w hw
      fin_cases hw
      norm_num)
  rw [c4_run_eq]
  exact h ⟨93⟩ (by rw [c4_run_eq]; exact List.mem_cons_self _ _)

theorem sameStatics_refl (st : HourState) : sameStatics st st :=
  ⟨rfl, rfl, rfl, fun _ => rfl, fun _ => rfl, fun _ => rfl, fun _ => rfl, fun _ => rfl⟩

theorem sameStatics_trans {a b c : HourState}
    (h1 : sameStatics a b) (h2 : sameStatics b c) : sameStatics a c :=
  ⟨h2.1.trans h1.1, h2.2.1.trans h1.2.1, h2.2.2.1.trans h1.2.2.1,
   fun i => (h2.2.2.2.1 i).trans (h1.2.2.2.1 i),
   fun i => (h2.2.2.2.2.1 i).trans (h1.2.2.2.2.1 i),
   fun i => (h2.2.2.2.2.2.1 i).trans (h1.2.2.2.2.2.1 i),
   fun i => (h2.2.2.2.2.2.2.1 i).trans (h1.2.2.2.2.2.2.1 i),
   fun i => (h2.2.2.2.2.2.2.2 i).trans (h1.2.2.2.2.2.2.2 i)⟩

/-- Updating one list entry in place with a function that preserves a
projection leaves that projection unchanged at every index. -/
theorem set_modify_getD_proj {α β : Type} [Inhabited α] (l : List α) (i j : Nat)
    (f : α → α) (p : α → β) (hf : ∀ x, p (f x) = p x) :
    p ((l.set i (f (l.getD i default))).getD j default) = p (l.getD j default) := by
  by_cases hij : i = j
  · subst hij
    by_cases hlen : i < l.length
    · rw [getD_set_self _ _ _ _ hlen, hf]
    · rw [List.set_eq_of_length_le (by omega)]
  · rw [getD_set_ne _ _ _ _ _ hij]

theorem applyTransfer_sameStatics (st : HourState) (ci wi src tgt : Nat) (xfer : ℚ) :
    sameStatics st (applyTransfer st ci wi src tgt xfer) := by
  simp only [applyTransfer]
  refine ⟨?_, ?_, ?_, ?_, ?_, ?_, ?_, ?_⟩
  · rw [List.length_set, List.length_set]
  · rw [List.length_set]
  · rw [List.length_set]
  · intro i
    exact (set_modify_getD_proj _ tgt i (fun r => r.updateWaterLevel xfer)
        Region.waterNeed (fun _ => rfl)).trans
      (set_modify_getD_proj _ src i (fun r => r.updateWaterLevel (-xfer))
        Region.waterNeed (fun _ => rfl))
  · intro i
    exact (set_modify_getD_proj _ tgt i (fun r => r.updateWaterLevel xfer)
        Region.waterCapacity (fun _ => rfl)).trans
      (set_modify_getD_proj _ src i (fun r => r.updateWaterLevel (-xfer))
        Region.waterCapacity (fun _ => rfl))
  · intro i
    exact set_modify_getD_proj _ ci i (fun c => (c.toggleOpen true).setFlowRate (xfer / 3600))
      Canal.sourceRegion (fun _ => rfl)
  · intro i
    exact set_modify_getD_proj _ ci i (fun c => (c.toggleOpen true).setFlowRate (xfer / 3600))
      Canal.destinationRegion (fun _ => rfl)
  · intro i
    exact set_modify_getD_proj _ ci i (fun c => (c.toggleOpen true).setFlowRate (xfer / 3600))
      Canal.waterSource (fun _ => rfl)

theorem canalScan_sameStatics (src tgt : Nat) (avail : ℚ) :
    ∀ (cis : List Nat) (st : HourState) (deficit : ℚ) (did : Bool)
      (tr : List TransferEvent),
      sameStatics st (canalScan src tgt avail cis st deficit did tr).st := by
  intro cis
  induction cis with
  | nil => intro st deficit did tr; exact sameStatics_refl st
  | cons ci rest ih =>
    intro st deficit did tr
    simp only [canalScan]
    split
    · exact ih st deficit did tr
    · split
      · exact ih st deficit did tr
      · split
        · exact ih st deficit did tr
        · split
          · exact applyTransfer_sameStatics st ci _ src tgt _
          · exact sameStatics_trans (applyTransfer_sameStatics st ci _ src tgt _)
              (ih _ _ _ _)

theorem donorScan_sameStatics (canals0 : List Canal) (tgt : Nat) :
    ∀ (ds : List Nat) (st : HourState) (deficit : ℚ) (did : Bool)
      (tr : List TransferEvent),
      sameStatics st (donorScan canals0 tgt ds st deficit did tr).st := by
  intro ds
  induction ds with
  | nil => intro st deficit did tr; exact sameStatics_refl st
  | cons d rest ih =>
    intro st deficit did tr
    simp only [donorScan]
    split
    · exact ih st deficit did tr
    · split
      · exact ih st deficit did tr
      · split
        · exact canalScan_sameStatics _ _ _ _ st deficit did tr
        · exact sameStatics_trans (canalScan_sameStatics _ _ _ _ st deficit did tr)
            (ih _ _ _ _)

theorem loopBody_sameStatics (c0 : List Canal) (d : List Nat) (ls : LoopState) :
    sameStatics ls.st (loopBody c0 d ls).st := by
  unfold loopBody
  split
  · exact sameStatics_refl ls.st
  · exact donorScan_sameStatics c0 _ d ls.st _ ls.didTransfer ls.trace

theorem resetCanals_getD (l : List Canal) (i : Nat) :
    (resetCanals l).getD i default =
      (if (l.getD i default).isOpen then (l.getD i default).toggleOpen false
       else (l.getD i default)).setFlowRate 0 := by
  rw [List.getD_eq_getElem?_getD, List.getD_eq_getElem?_getD]
  unfold resetCanals
  rw [List.getElem?_map]
  cases l[i]? with
  | none => rfl
  | some c => rfl

theorem reset_sameStatics (st : HourState) :
    sameStatics st { st with canals := resetCanals st.canals } := by
  refine ⟨rfl, rfl, ?_, fun _ => rfl, fun _ => rfl, ?_, ?_, ?_⟩
  · show (resetCanals st.canals).length = _
    unfold resetCanals
    rw [List.length_map]
  · intro i
    show ((resetCanals st.canals).getD i default).sourceRegion = _
    rw [resetCanals_getD]
    by_cases h : (st.canals.getD i default).isOpen = true
    · rw [if_pos h]
      rfl
    · rw [if_neg h]
      rfl
  · intro i
    show ((resetCanals st.canals).getD i default).destinationRegion = _
    rw [resetCanals_getD]
    by_cases h : (st.canals.getD i default).isOpen = true
    · rw [if_pos h]
      rfl
    · rw [if_neg h]
      rfl
  · intro i
    show ((resetCanals st.canals).getD i default).waterSource = _
    rw [resetCanals_getD]
    by_cases h : (st.canals.getD i default).isOpen = true
    · rw [if_pos h]
      rfl
    · rw [if_neg h]
      rfl

theorem runHour_sameStatics (canals0 : List Canal) (st : HourState) :
    sameStatics st (runHour canals0 st).st := by
  rw [runHour_def]
  exact loopAux_preserves' canals0 _ (fun ls => sameStatics st ls.st)
    (fun ls hl => sameStatics_trans hl (loopBody_sameStatics _ _ ls)) _
    (reset_sameStatics st)

theorem solveLoop_sameStatics (c0 : List Canal) (solved : HourState → Bool)
    (maxH : Nat) (s : DriverState) :
    sameStatics s.hst (solveLoop c0 solved maxH s).hst :=
  solveLoop_preserves c0 solved maxH (sameStatics s.hst)
    (fun st hst => sameStatics_trans hst (runHour_sameStatics c0 st)) maxH s
    (by omega) (sameStatics_refl s.hst)

/-- C10: the frame condition.  Across an entire invocation of the allocation
routine, every region's need and capacity and every canal's source region,
destination region and water-source reference are unchanged, and no regions,
sources or canals are created or destroyed; the only world state that can
change is what `sameStatics` does not constrain: region and source water
levels and canal open/flow-rate flags (plus the driver's hour counter, which
lives outside the world state). -/
theorem c10_frame_condition (solved : HourState → Bool) (maxHours : Nat)
    (s : DriverState) :
    sameStatics s.hst (solveProblems solved maxHours s).hst :=
  solveLoop_sameStatics s.hst.canals solved maxHours s

theorem canalScan_trace_spec (src tgt : Nat) (avail : ℚ) :
    ∀ (cis : List Nat) (st : HourState) (deficit : ℚ) (did : Bool)
      (tr : List TransferEvent) (e : TransferEvent),
      e ∈ (canalScan src tgt avail cis st deficit did tr).trace →
      e ∈ tr ∨ (eventAmountSpec e ∧ kEpsilon < e.amount) := by
  intro cis
  induction cis with
  | nil => intro st deficit did tr e he; exact Or.inl he
  | cons ci rest ih =>
    intro st deficit did tr e
    simp only [canalScan]
    split
    · exact ih st deficit did tr e
    · next wi hws =>
      split
      · exact ih st deficit did tr e
      · next hwsl =>
        split
        · exact ih st deficit did tr e
        · next hxfer =>
          split
          · intro he
            rcases List.mem_append.mp he with hmem | hone
            · exact Or.inl hmem
            · refine Or.inr ⟨?_, ?_⟩
              · rw [List.mem_singleton.mp hone]
                rfl
              · rw [List.mem_singleton.mp hone]
                exact lt_of_not_le hxfer
          · intro he
            rcases ih _ _ _ _ e he with hmem | hspec
            · rcases List.mem_append.mp hmem with hmem2 | hone
              · exact Or.inl hmem2
              · refine Or.inr ⟨?_, ?_⟩
                · rw [List.mem_singleton.mp hone]
                  rfl
                · rw [List.mem_singleton.mp hone]
                  exact lt_of_not_le hxfer
            · exact Or.inr hspec

theorem donorScan_trace_spec (canals0 : List Canal) (tgt : Nat) :
    ∀ (ds : List Nat) (st : HourState) (deficit : ℚ) (did : Bool)
      (tr : List TransferEvent) (e : TransferEvent),
      e ∈ (donorScan canals0 tgt ds st deficit did tr).trace →
      e ∈ tr ∨ (eventAmountSpec e ∧ kEpsilon < e.amount) := by
  intro ds
  induction ds with
  | nil => intro st deficit did tr e he; exact Or.inl he
  | cons d rest ih =>
    intro st deficit did tr e
    simp only [donorScan]
    split
    · exact ih st deficit did tr e
    · split
      · exact ih st deficit did tr e
      · split
        · exact canalScan_trace_spec _ _ _ _ st deficit did tr e
        · intro he
          rcases ih _ _ _ _ e he with hmem | hspec
          · exact canalScan_trace_spec _ _ _ _ st deficit did tr e hmem
          · exact Or.inr hspec

theorem loopBody_trace_spec (c0 : List Canal) (d : List Nat) (ls : LoopState)
    (h : ∀ e ∈ ls.trace, eventAmountSpec e ∧ kEpsilon < e.amount) :
    ∀ e ∈ (loopBody c0 d ls).trace, eventAmountSpec e ∧ kEpsilon < e.amount := by
  unfold loopBody
  split
  · exact h
  · intro e he
    rcases donorScan_trace_spec c0 _ d ls.st _ ls.didTransfer ls.trace e he with hmem | hspec
    · exact h e hmem
    · exact hspec

/-- Every transfer executed during an hour moves exactly
`min(deficit, avail, source level, headroom)`, with the deficit, source level
and headroom taken at the moment of the transfer. -/
theorem runHour_trace_spec (canals0 : List Canal) (st : HourState) :
    ∀ e ∈ (runHour canals0 st).trace, eventAmountSpec e ∧ kEpsilon < e.amount := by
  rw [runHour_def]
  exact loopAux_preserves' canals0 _
    (fun ls => ∀ e ∈ ls.trace, eventAmountSpec e ∧ kEpsilon < e.amount)
    (fun ls hl => loopBody_trace_spec _ _ ls hl) _ (by intro e he; cases he)

/-- C2 counterexample: the claim demands that each transfer amount use the
donor's safe surplus RECOMPUTED FRESH AT THE TIME OF THE TRANSFER.  On the
two-canal input `dblSt` the second executed transfer moves 9, although the
donor's safe surplus at that moment is 0 (so the claimed minimum would be 0):
`avail` is only recomputed per donor scan (line 97), not per transfer. -/
theorem c2_counterexample :
    (runHour dblSt.canals dblSt).trace = [dblEv1, dblEv2] ∧
    dblEv2.amount = 9 ∧
    safeSurplus (dblEv2.pre.regions.getD dblEv2.donor default) = 0 ∧
    dblEv2.amount ≠ min (min dblEv2.deficitBefore
        (safeSurplus (dblEv2.pre.regions.getD dblEv2.donor default)))
      (min ((dblEv2.pre.sources.getD dblEv2.wsrc default).waterLevel)
        ((dblEv2.pre.regions.getD dblEv2.target default).waterCapacity
          - (dblEv2.pre.regions.getD dblEv2.target default).waterLevel)) := by
  refine ⟨?_, rfl, ?_, ?_⟩
  · rw [dbl_run_eq]
  · norm_num [dblEv2, dblMid, safeSurplus, kSafetyMargin, List.getD]
  · norm_num [dblEv2, dblMid, safeSurplus, kSafetyMargin, List.getD]

/-- C2 as amended: for every executed transfer, the transferred amount equals
the minimum of the target's remaining deficit, the water source's current
level and the target's remaining headroom — all at the moment of the transfer
— and the `avail` bound that the donor scan computed when it started (line
97), which is NOT recomputed at the time of each transfer; the amount always
exceeds ε. -/
theorem c2_amended_transfer_amount (canals0 : List Canal) (st : HourState)
    (e : TransferEvent) (he : e ∈ (runHour canals0 st).trace) :
    eventAmountSpec e ∧ kEpsilon < e.amount :=
  runHour_trace_spec canals0 st e he

/-- Witness for the amended C2 at the simple-transfer scenario. -/
theorem c2_amended_transfer_amount_witness :
    eventAmountSpec c4Ev ∧ kEpsilon < c4Ev.amount :=
  c2_amended_transfer_amount c4St.canals c4St c4Ev
    (by rw [c4_run_eq]; exact List.mem_cons_self _ _)

/-! ### C9 infrastructure: pointwise effect of one transfer -/

theorem applyTransfer_region_getD (st : HourState) (ci wi src tgt : Nat) (xfer : ℚ)
    (hne : src ≠ tgt) (i : Nat) :
    (applyTransfer st ci wi src tgt xfer).regions.getD i default =
      if i = src ∧ i < st.regions.length then
        (st.regions.getD i default).updateWaterLevel (-xfer)
      else if i = tgt ∧ i < st.regions.length then
        (st.regions.getD i default).updateWaterLevel xfer
      else st.regions.getD i default := by
  simp only [applyTransfer]
  by_cases hit : i = tgt
  · subst hit
    by_cases hlen : i < st.regions.length
    · rw [if_neg (fun hc => hne (hc.1.symm)), if_pos ⟨rfl, hlen⟩]
      rw [getD_set_self _ _ _ _ (by rw [List.length_set]; exact hlen)]
      rw [getD_set_ne _ _ _ _ _ hne]
    · rw [if_neg (fun hc => hne (hc.1.symm)), if_neg (fun hc => hlen hc.2)]
      rw [List.getD_eq_default _ _ (by rw [List.length_set, List.length_set]; omega)]
      rw [List.getD_eq_default _ _ (by omega)]
  · rw [getD_set_ne _ _ _ _ _ (fun hc => hit hc.symm)]
    by_cases his : i = src
    · subst his
      by_cases hlen : i < st.regions.length
      · rw [if_pos ⟨rfl, hlen⟩, getD_set_self _ _ _ _ hlen]
      · rw [if_neg (fun hc => hlen hc.2), if_neg (fun hc => hlen hc.2)]
        rw [List.set_eq_of_length_le (by omega)]
    · rw [getD_set_ne _ _ _ _ _ (fun hc => his hc.symm)]
      rw [if_neg (fun hc => his hc.1), if_neg (fun hc => hit hc.1)]

theorem applyTransfer_source_getD (st : HourState) (ci wi src tgt : Nat) (xfer : ℚ)
    (i : Nat) :
    (applyTransfer st ci wi src tgt xfer).sources.getD i default =
      if i = wi ∧ i < st.sources.length then
        (st.sources.getD i default).updateWaterLevel (-xfer)
      else st.sources.getD i default := by
  simp only [applyTransfer]
  by_cases hiw : i = wi
  · subst hiw
    by_cases hlen : i < st.sources.length
    · rw [if_pos ⟨rfl, hlen⟩, getD_set_self _ _ _ _ hlen]
    · rw [if_neg (fun hc => hlen hc.2), List.set_eq_of_length_le (by omega)]
  · rw [getD_set_ne _ _ _ _ _ (fun hc => hiw hc.symm), if_neg (fun hc => hiw hc.1)]

theorem evolL_refl (donors : List Nat) (st : HourState) : evolL donors st st :=
  ⟨fun _ => le_refl _, fun _ _ => le_refl _, fun _ _ => le_refl _⟩

theorem evolL_trans {donors : List Nat} {a b c : HourState}
    (h1 : evolL donors a b) (h2 : evolL donors b c) : evolL donors a c :=
  ⟨fun i => le_trans (h2.1 i) (h1.1 i),
   fun i hi => le_trans (h2.2.1 i hi) (h1.2.1 i hi),
   fun i hi => le_trans (h1.2.2 i hi) (h2.2.2 i hi)⟩

theorem applyTransfer_evolL (donors : List Nat) (st : HourState)
    (ci wi src tgt : Nat) (xfer : ℚ) (hsd : src ∈ donors) (htd : tgt ∉ donors)
    (hx : 0 ≤ xfer) : evolL donors st (applyTransfer st ci wi src tgt xfer) := by
  have hne : src ≠ tgt := fun hc => htd (hc ▸ hsd)
  refine ⟨?_, ?_, ?_⟩
  · intro i
    rw [applyTransfer_source_getD]
    split
    · show (st.sources.getD i default).waterLevel + -xfer ≤ _
      linarith
    · exact le_refl _
  · intro i hi
    rw [applyTransfer_region_getD st ci wi src tgt xfer hne]
    split
    · show (st.regions.getD i default).waterLevel + -xfer ≤ _
      linarith
    · split
      · next hc => exact absurd (hc.1 ▸ hi) htd
      · exact le_refl _
  · intro i hi
    rw [applyTransfer_region_getD st ci wi src tgt xfer hne]
    split
    · next hc => exact absurd (hc.1 ▸ hsd) hi
    · split
      · show _ ≤ (st.regions.getD i default).waterLevel + xfer
        linarith
      · exact le_refl _

theorem evWs_transport {st st' : HourState} (h : sameStatics st st')
    {e : TransferEvent} (he : evWs st e) : evWs st' e := by
  unfold evWs
  rw [h.2.2.2.2.2.2.2 e.canal]
  exact he

theorem safeSurplus_mono {r r' : Region} (hl : r'.waterLevel ≤ r.waterLevel)
    (hn : r'.waterNeed = r.waterNeed) (hc : r'.waterCapacity = r.waterCapacity) :
    safeSurplus r' ≤ safeSurplus r := by
  unfold safeSurplus
  rw [hn, hc]
  exact max_le_max (le_refl 0) (by linarith)

theorem dead12_mono {donors : List Nat} {st st' : HourState} {e : TransferEvent}
    (hev : evolL donors st st') (hst : sameStatics st st')
    (ht : e.target ∉ donors) (hd : dead12 st e) : dead12 st' e := by
  rcases hd with h | h
  · exact Or.inl (le_trans (hev.1 e.wsrc) h)
  · refine Or.inr ?_
    unfold headLow at h ⊢
    rw [hst.2.2.2.2.1 e.target]
    have := hev.2.2 e.target ht
    linarith

theorem dead123_mono {donors : List Nat} {st st' : HourState} {e : TransferEvent}
    (hev : evolL donors st st') (hst : sameStatics st st')
    (hd : e.donor ∈ donors) (ht : e.target ∉ donors)
    (h : dead123 st e) : dead123 st' e := by
  rcases h with h | h | h
  · exact Or.inl (le_trans (hev.1 e.wsrc) h)
  · refine Or.inr (Or.inl ?_)
    unfold headLow at h ⊢
    rw [hst.2.2.2.2.1 e.target]
    have := hev.2.2 e.target ht
    linarith
  · refine Or.inr (Or.inr ?_)
    refine le_trans (safeSurplus_mono (hev.2.1 e.donor hd)
      (hst.2.2.2.1 e.donor) (hst.2.2.2.2.1 e.donor)) h

/-! ### C9 infrastructure: queue and partition facts -/

theorem popMax_eq_none : ∀ (l : List Need), popMax l = none ↔ l = [] := by
  intro l
  cases l with
  | nil => simp [popMax]
  | cons n ns =>
    simp only [popMax]
    cases popMax ns with
    | none => simp
    | some p =>
      obtain ⟨m, rest⟩ := p
      dsimp only
      split <;> simp

/-- Popping returns a permutation: the queue is the popped element plus the
rest. -/
theorem popMax_perm : ∀ (l : List Need) (m : Need) (rest : List Need),
    popMax l = some (m, rest) → l.Perm (m :: rest) := by
  intro l
  induction l with
  | nil => intro m rest h; cases h
  | cons n ns ih =>
    intro m rest h
    simp only [popMax] at h
    cases hpm : popMax ns with
    | none =>
      rw [hpm] at h
      have hns : ns = [] := (popMax_eq_none ns).mp hpm
      simp only [Option.some.injEq, Prod.mk.injEq] at h
      rw [hns, ← h.1, ← h.2]
    | some p =>
      obtain ⟨m', rest'⟩ := p
      rw [hpm] at h
      dsimp only at h
      split at h
      · simp only [Option.some.injEq, Prod.mk.injEq] at h
        rw [← h.1, ← h.2]
        exact (List.Perm.cons n (ih m' rest' hpm)).trans (List.Perm.swap m' n rest')
      · simp only [Option.some.injEq, Prod.mk.injEq] at h
        rw [← h.1, ← h.2]

theorem partitionNeedsAux_region_ge : ∀ (rs : List Region) (i : Nat) (n : Need),
    n ∈ partitionNeedsAux i rs → i ≤ n.region := by
  intro rs
  induction rs with
  | nil => intro i n h; cases h
  | cons r rest ih =>
    intro i n h
    simp only [partitionNeedsAux] at h
    split at h
    · rcases List.mem_cons.mp h with he | hm
      · rw [he]
      · exact le_trans (by omega) (ih (i + 1) n hm)
    · exact le_trans (by omega) (ih (i + 1) n h)

theorem partitionDonorsAux_ge : ∀ (rs : List Region) (i j : Nat),
    j ∈ partitionDonorsAux i rs → i ≤ j := by
  intro rs
  induction rs with
  | nil => intro i j h; cases h
  | cons r rest ih =>
    intro i j h
    simp only [partitionDonorsAux] at h
    split at h
    · exact le_trans (by omega) (ih (i + 1) j h)
    · split at h
      · rcases List.mem_cons.mp h with he | hm
        · omega
        · exact le_trans (by omega) (ih (i + 1) j hm)
      · exact le_trans (by omega) (ih (i + 1) j h)

/-- A region that is queued as a need is never also a donor: the partition
pass puts each region in at most one of the two groups. -/
theorem partition_disjoint : ∀ (rs : List Region) (i : Nat) (n : Need),
    n ∈ partitionNeedsAux i rs → n.region ∉ partitionDonorsAux i rs := by
  intro rs
  induction rs with
  | nil => intro i n h; cases h
  | cons r rest ih =>
    intro i n h hd
    simp only [partitionNeedsAux] at h
    simp only [partitionDonorsAux] at hd
    by_cases hc : kEpsilon < getDeficit r
    · rw [if_pos hc] at h hd
      rcases List.mem_cons.mp h with he | hm
      · have hge := partitionDonorsAux_ge rest (i + 1) n.region hd
        have hri : n.region = i := by rw [he]
        omega
      · exact ih (i + 1) n hm hd
    · rw [if_neg hc] at h hd
      have hge := partitionNeedsAux_region_ge rest (i + 1) n h
      by_cases hs : kEpsilon < safeSurplus r
      · rw [if_pos hs] at hd
        rcases List.mem_cons.mp hd with he | hm
        · omega
        · exact ih (i + 1) n h hm
      · rw [if_neg hs] at hd
        exact ih (i + 1) n h hd

theorem partitionNeedsAux_nodup : ∀ (rs : List Region) (i : Nat),
    ((partitionNeedsAux i rs).map Need.region).Nodup := by
  intro rs
  induction rs with
  | nil => intro i; exact List.nodup_nil
  | cons r rest ih =>
    intro i
    simp only [partitionNeedsAux]
    split
    · rw [List.map_cons]
      refine List.nodup_cons.mpr ⟨?_, ih (i + 1)⟩
      intro hmem
      rcases List.mem_map.mp hmem with ⟨n, hn, hreg⟩
      have h2 := partitionNeedsAux_region_ge rest (i + 1) n hn
      have hri : n.region = i := by rw [hreg]
      omega
    · exact ih (i + 1)

/-! ### C9 infrastructure: evolution through the scans -/

theorem kEpsilon_pos : 0 < kEpsilon := by norm_num [kEpsilon]

theorem canalScan_evolL (donors : List Nat) (src tgt : Nat) (avail : ℚ)
    (hsd : src ∈ donors) (htd : tgt ∉ donors) :
    ∀ (cis : List Nat) (st : HourState) (deficit : ℚ) (did : Bool)
      (tr : List TransferEvent),
      evolL donors st (canalScan src tgt avail cis st deficit did tr).st := by
  intro cis
  induction cis with
  | nil => intro st deficit did tr; exact evolL_refl donors st
  | cons ci rest ih =>
    intro st deficit did tr
    simp only [canalScan]
    split
    · exact ih st deficit did tr
    · split
      · exact ih st deficit did tr
      · split
        · exact ih st deficit did tr
        · next hxfer =>
          have hx : (0:ℚ) ≤ min (min deficit avail)
              (min ((st.sources.getD _ default).waterLevel)
                ((st.regions.getD tgt default).waterCapacity
                  - (st.regions.getD tgt default).waterLevel)) :=
            le_of_lt (lt_trans kEpsilon_pos (lt_of_not_le hxfer))
          split
          · exact applyTransfer_evolL donors st ci _ src tgt _ hsd htd hx
          · exact evolL_trans (applyTransfer_evolL donors st ci _ src tgt _ hsd htd hx)
              (ih _ _ _ _)

theorem donorScan_evolL (canals0 : List Canal) (donors : List Nat) (tgt : Nat)
    (htd : tgt ∉ donors) :
    ∀ (ds : List Nat) (st : HourState) (deficit : ℚ) (did : Bool)
      (tr : List TransferEvent), (∀ d ∈ ds, d ∈ donors) →
      evolL donors st (donorScan canals0 tgt ds st deficit did tr).st := by
  intro ds
  induction ds with
  | nil => intro st deficit did tr _; exact evolL_refl donors st
  | cons d rest ih =>
    intro st deficit did tr hds
    have hd : d ∈ donors := hds d (List.mem_cons_self d rest)
    have hrest : ∀ x ∈ rest, x ∈ donors := fun x hx => hds x (List.mem_cons_of_mem d hx)
    simp only [donorScan]
    split
    · exact ih st deficit did tr hrest
    · split
      · exact ih st deficit did tr hrest
      · split
        · exact canalScan_evolL donors d tgt _ hd htd _ st deficit did tr
        · exact evolL_trans (canalScan_evolL donors d tgt _ hd htd _ st deficit did tr)
            (ih _ _ _ _ hrest)

/-! ### C9 infrastructure: facts about the state right after a transfer -/

theorem applyTransfer_evWs_self (st : HourState) (ci wi src tgt : Nat) (xfer : ℚ)
    (hws : (st.canals.getD ci default).waterSource = some wi) :
    ((applyTransfer st ci wi src tgt xfer).canals.getD ci default).waterSource = some wi := by
  have h1 : ((applyTransfer st ci wi src tgt xfer).canals.getD ci default).waterSource
      = (st.canals.getD ci default).waterSource := by
    simp only [applyTransfer]
    exact set_modify_getD_proj _ ci ci
      (fun c => (c.toggleOpen true).setFlowRate (xfer / 3600)) Canal.waterSource
      (fun _ => rfl)
  rw [h1, hws]

theorem applyTransfer_rawExcess (st : HourState) (ci wi src tgt : Nat)
    (xfer avail : ℚ) (hne : src ≠ tgt) (hx : 0 ≤ xfer) (hav : 0 ≤ avail)
    (h : rawExcess (st.regions.getD src default) ≤ avail) :
    rawExcess ((applyTransfer st ci wi src tgt xfer).regions.getD src default) ≤ avail := by
  rw [applyTransfer_region_getD st ci wi src tgt xfer hne src]
  split
  · show rawExcess ((st.regions.getD src default).updateWaterLevel (-xfer)) ≤ avail
    have h2 : rawExcess ((st.regions.getD src default).updateWaterLevel (-xfer))
        = rawExcess (st.regions.getD src default) - xfer := by
      unfold rawExcess Region.updateWaterLevel
      dsimp only
      ring
    rw [h2]
    linarith
  · split
    · next hc => exact absurd hc.1 hne
    · exact h

/-- After a transfer whose amount did not exhaust the remaining deficit, the
canal is dead: its source is depleted, or its target is full, or its donor
has no surplus left (the amount was the minimum of the four bounds, and it
was not the deficit). -/
theorem applyTransfer_dead (st : HourState) (ci wi src tgt : Nat)
    (deficit avail : ℚ) (hne : src ≠ tgt)
    (hexcess : rawExcess (st.regions.getD src default) ≤ avail)
    (hdef : ¬ (deficit - min (min deficit avail)
        (min ((st.sources.getD wi default).waterLevel)
          ((st.regions.getD tgt default).waterCapacity
            - (st.regions.getD tgt default).waterLevel)) ≤ kEpsilon)) :
    dead123 (applyTransfer st ci wi src tgt (min (min deficit avail)
        (min ((st.sources.getD wi default).waterLevel)
          ((st.regions.getD tgt default).waterCapacity
            - (st.regions.getD tgt default).waterLevel))))
      ⟨ci, wi, src, tgt, min (min deficit avail)
        (min ((st.sources.getD wi default).waterLevel)
          ((st.regions.getD tgt default).waterCapacity
            - (st.regions.getD tgt default).waterLevel)), avail, deficit, st⟩ := by
  have hcases : min (min deficit avail)
      (min ((st.sources.getD wi default).waterLevel)
        ((st.regions.getD tgt default).waterCapacity
          - (st.regions.getD tgt default).waterLevel)) = deficit ∨
      min (min deficit avail)
        (min ((st.sources.getD wi default).waterLevel)
          ((st.regions.getD tgt default).waterCapacity
            - (st.regions.getD tgt default).waterLevel)) = avail ∨
      min (min deficit avail)
        (min ((st.sources.getD wi default).waterLevel)
          ((st.regions.getD tgt default).waterCapacity
            - (st.regions.getD tgt default).waterLevel))
        = (st.sources.getD wi default).waterLevel ∨
      min (min deficit avail)
        (min ((st.sources.getD wi default).waterLevel)
          ((st.regions.getD tgt default).waterCapacity
            - (st.regions.getD tgt default).waterLevel))
        = (st.regions.getD tgt default).waterCapacity
            - (st.regions.getD tgt default).waterLevel := by
    rcases min_cases (min deficit avail)
        (min ((st.sources.getD wi default).waterLevel)
          ((st.regions.getD tgt default).waterCapacity
            - (st.regions.getD tgt default).waterLevel)) with ⟨h1, _⟩ | ⟨h1, _⟩
    · rcases min_cases deficit avail with ⟨h2, _⟩ | ⟨h2, _⟩
      · exact Or.inl (h1.trans h2)
      · exact Or.inr (Or.inl (h1.trans h2))
    · rcases min_cases ((st.sources.getD wi default).waterLevel)
          ((st.regions.getD tgt default).waterCapacity
            - (st.regions.getD tgt default).waterLevel) with ⟨h2, _⟩ | ⟨h2, _⟩
      · exact Or.inr (Or.inr (Or.inl (h1.trans h2)))
      · exact Or.inr (Or.inr (Or.inr (h1.trans h2)))
  rcases hcases with hX | hX | hX | hX
  · exact absurd (by rw [hX]; simp; exact le_of_lt kEpsilon_pos) hdef
  · refine Or.inr (Or.inr ?_)
    show safeSurplus ((applyTransfer st ci wi src tgt _).regions.getD src default) ≤ kEpsilon
    rw [applyTransfer_region_getD st ci wi src tgt _ hne src]
    split
    · show safeSurplus ((st.regions.getD src default).updateWaterLevel (-(min _ _))) ≤ kEpsilon
      unfold safeSurplus Region.updateWaterLevel
      unfold rawExcess at hexcess
      dsimp only
      refine max_le (le_of_lt kEpsilon_pos) ?_
      rw [hX]
      linarith [kEpsilon_pos]
    · split
      · next hc => exact absurd hc.1 hne
      · next hc1 hc2 =>
        have hlen : st.regions.length ≤ src := by
          by_contra hcon
          exact hc1 ⟨rfl, by omega⟩
        rw [List.getD_eq_default _ _ hlen]
        show max 0 ((((0:ℚ)) - 0) - kSafetyMargin * 0) ≤ kEpsilon
        norm_num [kEpsilon]
  · refine Or.inl ?_
    show ((applyTransfer st ci wi src tgt _).sources.getD wi default).waterLevel ≤ kEpsilon
    rw [applyTransfer_source_getD]
    split
    · show (st.sources.getD wi default).waterLevel + -(min _ _) ≤ kEpsilon
      rw [hX]
      simp
      exact le_of_lt kEpsilon_pos
    · next hc =>
      have hlen : st.sources.length ≤ wi := by
        by_contra hcon
        exact hc ⟨rfl, by omega⟩
      rw [List.getD_eq_default _ _ hlen]
      show (0:ℚ) ≤ kEpsilon
      exact le_of_lt kEpsilon_pos
  · refine Or.inr (Or.inl ?_)
    show ((applyTransfer st ci wi src tgt _).regions.getD tgt default).waterCapacity
        - ((applyTransfer st ci wi src tgt _).regions.getD tgt default).waterLevel ≤ kEpsilon
    rw [applyTransfer_region_getD st ci wi src tgt _ hne tgt]
    split
    · next hc => exact absurd hc.1 (fun h => hne h.symm)
    · split
      · show (st.regions.getD tgt default).waterCapacity
            - ((st.regions.getD tgt default).waterLevel + min _ _) ≤ kEpsilon
        rw [hX]
        simp
        exact le_of_lt kEpsilon_pos
      · next hc1 hc2 =>
        have hlen : st.regions.length ≤ tgt := by
          by_contra hcon
          exact hc2 ⟨rfl, by omega⟩
        rw [List.getD_eq_default _ _ hlen]
        show ((0:ℚ)) - 0 ≤ kEpsilon
        norm_num [kEpsilon]

/-! ### C9: the master canal-scan lemma -/

/-- Walking one donor's candidate canal list: every new trace event belongs
to a canal of the list, carries this donor and target, still points at its
recorded water source, and is dead afterwards unless the target just got
satisfied; and no canal of the list that was already in the trace (hence
dead) transfers again, so the trace stays duplicate-free. -/
theorem canalScan_master (donors : List Nat) (src tgt : Nat) (avail : ℚ)
    (hsd : src ∈ donors) (htd : tgt ∉ donors) (heps : kEpsilon < avail) :
    ∀ (cis : List Nat) (st : HourState) (deficit : ℚ) (did : Bool)
      (tr : List TransferEvent),
      cis.Nodup →
      rawExcess (st.regions.getD src default) ≤ avail →
      (∀ e ∈ tr, e.canal ∈ cis → e.target = tgt ∧ evWs st e ∧ dead12 st e) →
      (tr.map TransferEvent.canal).Nodup →
      (∀ e ∈ (canalScan src tgt avail cis st deficit did tr).trace,
          e ∈ tr ∨ (e.canal ∈ cis ∧ e.donor = src ∧ e.target = tgt ∧
            evWs (canalScan src tgt avail cis st deficit did tr).st e ∧
            (dead123 (canalScan src tgt avail cis st deficit did tr).st e ∨
              (canalScan src tgt avail cis st deficit did tr).deficit ≤ kEpsilon))) ∧
      ((canalScan src tgt avail cis st deficit did tr).trace.map
          TransferEvent.canal).Nodup := by
  have hne : src ≠ tgt := fun hc => htd (hc ▸ hsd)
  intro cis
  induction cis with
  | nil =>
    intro st deficit did tr _ _ _ htrnd
    exact ⟨fun e he => Or.inl he, htrnd⟩
  | cons ci rest ih =>
    intro st deficit did tr hnd hexcess hold htrnd
    have hrestnd : rest.Nodup := (List.nodup_cons.mp hnd).2
    have hcinotrest : ci ∉ rest := (List.nodup_cons.mp hnd).1
    have hcisub : ∀ e ∈ tr, e.canal ∈ rest → e.target = tgt ∧ evWs st e ∧ dead12 st e :=
      fun e he hc => hold e he (List.mem_cons_of_mem ci hc)
    simp only [canalScan]
    split
    · have hres := ih st deficit did tr hrestnd hexcess hcisub htrnd
      refine ⟨fun e he => ?_, hres.2⟩
      rcases hres.1 e he with h | h
      · exact Or.inl h
      · exact Or.inr ⟨List.mem_cons_of_mem ci h.1, h.2.1, h.2.2.1, h.2.2.2.1, h.2.2.2.2⟩
    · next wi hws =>
      split
      · have hres := ih st deficit did tr hrestnd hexcess hcisub htrnd
        refine ⟨fun e he => ?_, hres.2⟩
        rcases hres.1 e he with h | h
        · exact Or.inl h
        · exact Or.inr ⟨List.mem_cons_of_mem ci h.1, h.2.1, h.2.2.1, h.2.2.2.1, h.2.2.2.2⟩
      · next hwsl =>
        split
        · have hres := ih st deficit did tr hrestnd hexcess hcisub htrnd
          refine ⟨fun e he => ?_, hres.2⟩
          rcases hres.1 e he with h | h
          · exact Or.inl h
          · exact Or.inr ⟨List.mem_cons_of_mem ci h.1, h.2.1, h.2.2.1, h.2.2.2.1, h.2.2.2.2⟩
        · next hxfer =>
          have hX0 : (0:ℚ) ≤ min (min deficit avail)
              (min ((st.sources.getD wi default).waterLevel)
                ((st.regions.getD tgt default).waterCapacity
                  - (st.regions.getD tgt default).waterLevel)) :=
            le_of_lt (lt_trans kEpsilon_pos (lt_of_not_le hxfer))
          have hXle : min (min deficit avail)
              (min ((st.sources.getD wi default).waterLevel)
                ((st.regions.getD tgt default).waterCapacity
                  - (st.regions.getD tgt default).waterLevel))
              ≤ min ((st.sources.getD wi default).waterLevel)
                ((st.regions.getD tgt default).waterCapacity
                  - (st.regions.getD tgt default).waterLevel) := min_le_right _ _
          -- the canal ci cannot already be in the trace
          have hcinew : ∀ e ∈ tr, e.canal ≠ ci := by
            intro e he hc
            obtain ⟨htgt', hws', hdead⟩ := hold e he (by rw [hc]; exact List.mem_cons_self ci rest)
            rcases hdead with hlow | hhigh
            · have hwsrc : e.wsrc = wi := by
                have h2 := hws'
                unfold evWs at h2
                rw [hc, hws] at h2
                exact (Option.some.injEq _ _).mp h2.symm
              unfold wsLow at hlow
              rw [hwsrc] at hlow
              exact hwsl hlow
            · unfold headLow at hhigh
              rw [htgt'] at hhigh
              exact hxfer (le_trans hXle (le_trans (min_le_right _ _) hhigh))
          have hnodup2 : ((tr ++ [(⟨ci, wi, src, tgt, min (min deficit avail)
              (min ((st.sources.getD wi default).waterLevel)
                ((st.regions.getD tgt default).waterCapacity
                  - (st.regions.getD tgt default).waterLevel)), avail, deficit,
              st⟩ : TransferEvent)]).map TransferEvent.canal).Nodup := by
            rw [List.map_append]
            refine List.Nodup.append htrnd (List.nodup_singleton ci) ?_
            intro a ha hb
            rcases List.mem_map.mp ha with ⟨e, he, hec⟩
            simp only [List.map_cons, List.map_nil, List.mem_singleton] at hb
            exact hcinew e he (by rw [hec, hb])
          have hevws1 : evWs (applyTransfer st ci wi src tgt (min (min deficit avail)
              (min ((st.sources.getD wi default).waterLevel)
                ((st.regions.getD tgt default).waterCapacity
                  - (st.regions.getD tgt default).waterLevel))))
              ⟨ci, wi, src, tgt, min (min deficit avail)
                (min ((st.sources.getD wi default).waterLevel)
                  ((st.regions.getD tgt default).waterCapacity
                    - (st.regions.getD tgt default).waterLevel)), avail, deficit, st⟩ :=
            applyTransfer_evWs_self st ci wi src tgt _ hws
          split
          · next hdef =>
            refine ⟨fun e he => ?_, hnodup2⟩
            rcases List.mem_append.mp he with hmem | hone
            · exact Or.inl hmem
            · rw [List.mem_singleton.mp hone]
              exact Or.inr ⟨List.mem_cons_self ci rest, rfl, rfl, hevws1, Or.inr hdef⟩
          · next hdef =>
            have hsame := applyTransfer_sameStatics st ci wi src tgt (min (min deficit avail)
              (min ((st.sources.getD wi default).waterLevel)
                ((st.regions.getD tgt default).waterCapacity
                  - (st.regions.getD tgt default).waterLevel)))
            have hevol := applyTransfer_evolL donors st ci wi src tgt _ hsd htd hX0
            have hexcess' := applyTransfer_rawExcess st ci wi src tgt _ avail hne hX0
              (le_of_lt (lt_trans kEpsilon_pos heps)) hexcess
            have hold' : ∀ e ∈ tr ++ [(⟨ci, wi, src, tgt, min (min deficit avail)
                (min ((st.sources.getD wi default).waterLevel)
                  ((st.regions.getD tgt default).waterCapacity
                    - (st.regions.getD tgt default).waterLevel)), avail, deficit,
                st⟩ : TransferEvent)],
                e.canal ∈ rest → e.target = tgt ∧
                  evWs (applyTransfer st ci wi src tgt (min (min deficit avail)
                    (min ((st.sources.getD wi default).waterLevel)
                      ((st.regions.getD tgt default).waterCapacity
                        - (st.regions.getD tgt default).waterLevel)))) e ∧
                  dead12 (applyTransfer st ci wi src tgt (min (min deficit avail)
                    (min ((st.sources.getD wi default).waterLevel)
                      ((st.regions.getD tgt default).waterCapacity
                        - (st.regions.getD tgt default).waterLevel)))) e := by
              intro e he hc
              rcases List.mem_append.mp he with hmem | hone
              · obtain ⟨ht', hw', hd'⟩ := hcisub e hmem hc
                exact ⟨ht', evWs_transport hsame hw',
                  dead12_mono hevol hsame (ht' ▸ htd) hd'⟩
              · rw [List.mem_singleton.mp hone] at hc
                exact absurd hc hcinotrest
            have hres := ih (applyTransfer st ci wi src tgt (min (min deficit avail)
              (min ((st.sources.getD wi default).waterLevel)
                ((st.regions.getD tgt default).waterCapacity
                  - (st.regions.getD tgt default).waterLevel))))
              (deficit - (min (min deficit avail)
              (min ((st.sources.getD wi default).waterLevel)
                ((st.regions.getD tgt default).waterCapacity
                  - (st.regions.getD tgt default).waterLevel)))) true (tr ++ [(⟨ci, wi, src, tgt, min (min deficit avail)
              (min ((st.sources.getD wi default).waterLevel)
                ((st.regions.getD tgt default).waterCapacity
                  - (st.regions.getD tgt default).waterLevel)), avail, deficit,
              st⟩ : TransferEvent)]) hrestnd hexcess' hold' hnodup2
            have hdead1 : dead123 (applyTransfer st ci wi src tgt (min (min deficit avail)
                (min ((st.sources.getD wi default).waterLevel)
                  ((st.regions.getD tgt default).waterCapacity
                    - (st.regions.getD tgt default).waterLevel))))
                ⟨ci, wi, src, tgt, min (min deficit avail)
                  (min ((st.sources.getD wi default).waterLevel)
                    ((st.regions.getD tgt default).waterCapacity
                      - (st.regions.getD tgt default).waterLevel)), avail, deficit, st⟩ :=
              applyTransfer_dead st ci wi src tgt deficit avail hne hexcess hdef
            have hsame2 := canalScan_sameStatics src tgt avail rest
              (applyTransfer st ci wi src tgt (min (min deficit avail)
              (min ((st.sources.getD wi default).waterLevel)
                ((st.regions.getD tgt default).waterCapacity
                  - (st.regions.getD tgt default).waterLevel)))) (deficit - (min (min deficit avail)
              (min ((st.sources.getD wi default).waterLevel)
                ((st.regions.getD tgt default).waterCapacity
                  - (st.regions.getD tgt default).waterLevel)))) true (tr ++ [(⟨ci, wi, src, tgt, min (min deficit avail)
              (min ((st.sources.getD wi default).waterLevel)
                ((st.regions.getD tgt default).waterCapacity
                  - (st.regions.getD tgt default).waterLevel)), avail, deficit,
              st⟩ : TransferEvent)])
            have hevol2 := canalScan_evolL donors src tgt avail hsd htd rest
              (applyTransfer st ci wi src tgt (min (min deficit avail)
              (min ((st.sources.getD wi default).waterLevel)
                ((st.regions.getD tgt default).waterCapacity
                  - (st.regions.getD tgt default).waterLevel)))) (deficit - (min (min deficit avail)
              (min ((st.sources.getD wi default).waterLevel)
                ((st.regions.getD tgt default).waterCapacity
                  - (st.regions.getD tgt default).waterLevel)))) true (tr ++ [(⟨ci, wi, src, tgt, min (min deficit avail)
              (min ((st.sources.getD wi default).waterLevel)
                ((st.regions.getD tgt default).waterCapacity
                  - (st.regions.getD tgt default).waterLevel)), avail, deficit,
              st⟩ : TransferEvent)])
            refine ⟨fun e he => ?_, hres.2⟩
            rcases hres.1 e he with h | h
            · rcases List.mem_append.mp h with hmem | hone
              · exact Or.inl hmem
              · rw [List.mem_singleton.mp hone]
                refine Or.inr ⟨List.mem_cons_self ci rest, rfl, rfl,
                  evWs_transport hsame2 hevws1, Or.inl ?_⟩
                exact dead123_mono hevol2 hsame2 hsd htd hdead1
            · exact Or.inr ⟨List.mem_cons_of_mem ci h.1, h.2.1, h.2.2.1, h.2.2.2.1, h.2.2.2.2⟩

theorem canalIndicesBetween_mem (canals0 : List Canal) (src tgt i : Nat) :
    i ∈ canalIndicesBetween canals0 src tgt ↔
      i < canals0.length ∧ (canals0.getD i default).sourceRegion = src ∧
        (canals0.getD i default).destinationRegion = tgt := by
  unfold canalIndicesBetween
  rw [List.mem_filter, List.mem_range]
  constructor
  · intro ⟨h1, h2⟩
    rw [Bool.and_eq_true, beq_iff_eq, beq_iff_eq] at h2
    exact ⟨h1, h2⟩
  · intro ⟨h1, h2⟩
    refine ⟨h1, ?_⟩
    rw [Bool.and_eq_true, beq_iff_eq, beq_iff_eq]
    exact h2

theorem canalIndicesBetween_nodup (canals0 : List Canal) (src tgt : Nat) :
    (canalIndicesBetween canals0 src tgt).Nodup :=
  List.Nodup.filter _ (List.nodup_range _)

/-- Scanning the donor list for one popped target: all trace events keep
their routing, water-source binding, donor/target membership facts, and every
event is afterwards dead, or protected by the state-independent predicate
`Q`, or the target was just satisfied; and the trace never records the same
canal twice. -/
theorem donorScan_master (canals0 : List Canal) (donors : List Nat) (tgt : Nat)
    (htd : tgt ∉ donors) (Q : TransferEvent → Prop)
    (hQ : ∀ e, Q e → e.target ≠ tgt) :
    ∀ (ds : List Nat) (st : HourState) (deficit : ℚ) (did : Bool)
      (tr : List TransferEvent),
      (∀ d ∈ ds, d ∈ donors) →
      (∀ e ∈ tr, evRouting canals0 e) →
      (∀ e ∈ tr, evWs st e) →
      (∀ e ∈ tr, e.donor ∈ donors) →
      (∀ e ∈ tr, e.target ∉ donors) →
      (∀ e ∈ tr, dead123 st e ∨ Q e) →
      (tr.map TransferEvent.canal).Nodup →
      (∀ e ∈ (donorScan canals0 tgt ds st deficit did tr).trace, evRouting canals0 e) ∧
      (∀ e ∈ (donorScan canals0 tgt ds st deficit did tr).trace,
          evWs (donorScan canals0 tgt ds st deficit did tr).st e) ∧
      (∀ e ∈ (donorScan canals0 tgt ds st deficit did tr).trace, e.donor ∈ donors) ∧
      (∀ e ∈ (donorScan canals0 tgt ds st deficit did tr).trace, e.target ∉ donors) ∧
      (∀ e ∈ (donorScan canals0 tgt ds st deficit did tr).trace,
          dead123 (donorScan canals0 tgt ds st deficit did tr).st e ∨ Q e ∨
            (e.target = tgt ∧ (donorScan canals0 tgt ds st deficit did tr).deficit ≤ kEpsilon)) ∧
      ((donorScan canals0 tgt ds st deficit did tr).trace.map TransferEvent.canal).Nodup := by
  intro ds
  induction ds with
  | nil =>
    intro st deficit did tr _ h1 h2 h3 h4 h5 h6
    exact ⟨h1, h2, h3, h4, fun e he => (h5 e he).imp_right Or.inl, h6⟩
  | cons d ds ih =>
    intro st deficit did tr hds hrout hws hdon htgt hdead htrnd
    have hd : d ∈ donors := hds d (List.mem_cons_self d ds)
    have hds' : ∀ x ∈ ds, x ∈ donors := fun x hx => hds x (List.mem_cons_of_mem d hx)
    simp only [donorScan]
    split
    · exact ih st deficit did tr hds' hrout hws hdon htgt hdead htrnd
    · next havail =>
      split
      · exact ih st deficit did tr hds' hrout hws hdon htgt hdead htrnd
      · next hcne =>
        have havail' : kEpsilon < safeSurplus (st.regions.getD d default) :=
          lt_of_not_le havail
        have hexcess : rawExcess (st.regions.getD d default)
            ≤ safeSurplus (st.regions.getD d default) := le_max_right _ _
        have hold : ∀ e ∈ tr, e.canal ∈ canalIndicesBetween canals0 d tgt →
            e.target = tgt ∧ evWs st e ∧ dead12 st e := by
          intro e he hc
          obtain ⟨_, hsrc', hdst'⟩ := (canalIndicesBetween_mem canals0 d tgt e.canal).mp hc
          have hedonor : e.donor = d := by rw [← (hrout e he).1, hsrc']
          have hetgt : e.target = tgt := by rw [← (hrout e he).2, hdst']
          refine ⟨hetgt, hws e he, ?_⟩
          rcases hdead e he with hd123 | hq
          · rcases hd123 with hx | hx | hx
            · exact Or.inl hx
            · exact Or.inr hx
            · unfold surplusLow at hx
              rw [hedonor] at hx
              exact absurd hx (not_le.mpr havail')
          · exact absurd hetgt (hQ e hq)
        have hmaster := canalScan_master donors d tgt
          (safeSurplus (st.regions.getD d default)) hd htd havail'
          (canalIndicesBetween canals0 d tgt) st deficit did tr
          (canalIndicesBetween_nodup canals0 d tgt) hexcess hold htrnd
        have hsame := canalScan_sameStatics d tgt (safeSurplus (st.regions.getD d default))
          (canalIndicesBetween canals0 d tgt) st deficit did tr
        have hevol := canalScan_evolL donors d tgt (safeSurplus (st.regions.getD d default))
          hd htd (canalIndicesBetween canals0 d tgt) st deficit did tr
        have hrout2 : ∀ e ∈ (canalScan d tgt (safeSurplus (st.regions.getD d default))
            (canalIndicesBetween canals0 d tgt) st deficit did tr).trace,
            evRouting canals0 e := by
          intro e he
          rcases hmaster.1 e he with hmem | hnew
          · exact hrout e hmem
          · obtain ⟨_, hsrc', hdst'⟩ :=
              (canalIndicesBetween_mem canals0 d tgt e.canal).mp hnew.1
            exact ⟨by rw [hsrc', hnew.2.1], by rw [hdst', hnew.2.2.1]⟩
        have hws2 : ∀ e ∈ (canalScan d tgt (safeSurplus (st.regions.getD d default))
            (canalIndicesBetween canals0 d tgt) st deficit did tr).trace,
            evWs (canalScan d tgt (safeSurplus (st.regions.getD d default))
              (canalIndicesBetween canals0 d tgt) st deficit did tr).st e := by
          intro e he
          rcases hmaster.1 e he with hmem | hnew
          · exact evWs_transport hsame (hws e hmem)
          · exact hnew.2.2.2.1
        have hdon2 : ∀ e ∈ (canalScan d tgt (safeSurplus (st.regions.getD d default))
            (canalIndicesBetween canals0 d tgt) st deficit did tr).trace,
            e.donor ∈ donors := by
          intro e he
          rcases hmaster.1 e he with hmem | hnew
          · exact hdon e hmem
          · rw [hnew.2.1]
            exact hd
        have htgt2 : ∀ e ∈ (canalScan d tgt (safeSurplus (st.regions.getD d default))
            (canalIndicesBetween canals0 d tgt) st deficit did tr).trace,
            e.target ∉ donors := by
          intro e he
          rcases hmaster.1 e he with hmem | hnew
          · exact htgt e hmem
          · rw [hnew.2.2.1]
            exact htd
        split
        · next hdef =>
          refine ⟨hrout2, hws2, hdon2, htgt2, ?_, hmaster.2⟩
          intro e he
          rcases hmaster.1 e he with hmem | hnew
          · rcases hdead e hmem with hd123 | hq
            · exact Or.inl (dead123_mono hevol hsame (hdon e hmem) (htgt e hmem) hd123)
            · exact Or.inr (Or.inl hq)
          · rcases hnew.2.2.2.2 with hd123 | hdef2
            · exact Or.inl hd123
            · exact Or.inr (Or.inr ⟨hnew.2.2.1, hdef2⟩)
        · next hdef =>
          refine ih _ _ _ _ hds' hrout2 hws2 hdon2 htgt2 ?_ hmaster.2
          intro e he
          rcases hmaster.1 e he with hmem | hnew
          · rcases hdead e hmem with hd123 | hq
            · exact Or.inl (dead123_mono hevol hsame (hdon e hmem) (htgt e hmem) hd123)
            · exact Or.inr hq
          · rcases hnew.2.2.2.2 with hd123 | hdef2
            · exact Or.inl hd123
            · exact absurd hdef2 hdef

theorem loopBody_LoopInv (canals0 : List Canal) (donors : List Nat) (ls : LoopState)
    (h : LoopInv canals0 donors ls) :
    LoopInv canals0 donors (loopBody canals0 donors ls) := by
  obtain ⟨hneed, hnodupn, hrout, hws, hdon, htgt, hdead, htrnd⟩ := h
  unfold loopBody
  split
  · exact ⟨hneed, hnodupn, hrout, hws, hdon, htgt, hdead, htrnd⟩
  · next curr rest hpop =>
    have hperm := popMax_perm ls.needs curr rest hpop
    have hcurrmem : curr ∈ ls.needs := popMax_mem ls.needs curr rest hpop
    have htgtcurr : curr.region ∉ donors := hneed curr hcurrmem
    have hrestmem : ∀ n ∈ rest, n ∈ ls.needs := fun n hn =>
      hperm.symm.subset (List.mem_cons_of_mem curr hn)
    have hn2 : (curr.region :: rest.map Need.region).Nodup := by
      have := (hperm.map Need.region).nodup_iff.mp hnodupn
      simpa using this
    have hcurrnotin : curr.region ∉ rest.map Need.region := (List.nodup_cons.mp hn2).1
    have hrestnodup : (rest.map Need.region).Nodup := (List.nodup_cons.mp hn2).2
    have hneedsmap : ∀ x, x ∈ List.map Need.region ls.needs ↔
        (x = curr.region ∨ x ∈ List.map Need.region rest) := by
      intro x
      rw [(hperm.map Need.region).mem_iff]
      simp
    have hdead' : ∀ e ∈ ls.trace, dead123 ls.st e ∨
        (e.target ≠ curr.region ∧ e.target ∉ rest.map Need.region) := by
      intro e he
      rcases hdead e he with hd | hq
      · exact Or.inl hd
      · refine Or.inr ⟨?_, ?_⟩
        · intro hc
          exact hq ((hneedsmap e.target).mpr (Or.inl hc))
        · intro hc
          exact hq ((hneedsmap e.target).mpr (Or.inr hc))
    have hm := donorScan_master canals0 donors curr.region htgtcurr
      (fun e => e.target ≠ curr.region ∧ e.target ∉ rest.map Need.region)
      (fun e hq => hq.1) donors ls.st curr.amount ls.didTransfer ls.trace
      (fun d hd => hd) hrout hws hdon htgt hdead' htrnd
    obtain ⟨m1, m2, m3, m4, m5, m6⟩ := hm
    unfold LoopInv
    dsimp only
    refine ⟨?_, ?_, m1, m2, m3, m4, ?_, m6⟩
    · intro n hn
      split at hn
      · rcases List.mem_append.mp hn with hr | ho
        · exact hneed n (hrestmem n hr)
        · rw [List.mem_singleton.mp ho]
          exact htgtcurr
      · exact hneed n (hrestmem n hn)
    · split
      · rw [List.map_append]
        refine List.Nodup.append hrestnodup (List.nodup_singleton _) ?_
        intro a ha hb
        simp only [List.map_cons, List.map_nil, List.mem_singleton] at hb
        rw [hb] at ha
        exact hcurrnotin ha
      · exact hrestnodup
    · intro e he
      rcases m5 e he with hd | hq | hsat
      · exact Or.inl hd
      · refine Or.inr ?_
        split
        · rw [List.map_append]
          intro hc
          rcases List.mem_append.mp hc with h1 | h2
          · exact hq.2 h1
          · simp only [List.map_cons, List.map_nil, List.mem_singleton] at h2
            exact hq.1 h2
        · exact hq.2
      · refine Or.inr ?_
        split
        · next hreq => exact absurd hsat.2 (not_le.mpr hreq)
        · rw [hsat.1]
          exact hcurrnotin

theorem runHour_LoopInv (canals0 : List Canal) (st : HourState) :
    LoopInv canals0 (partitionDonors st.regions)
      (loopAux canals0 (partitionDonors st.regions)
        ⟨partitionNeeds st.regions, { st with canals := resetCanals st.canals },
         false, [], 0⟩) := by
  refine loopAux_preserves' canals0 (partitionDonors st.regions)
    (LoopInv canals0 (partitionDonors st.regions))
    (fun ls hl => loopBody_LoopInv _ _ ls hl) _ ?_
  refine ⟨?_, ?_, ?_, ?_, ?_, ?_, ?_, ?_⟩
  · intro n hn
    exact partition_disjoint st.regions 0 n hn
  · exact partitionNeedsAux_nodup st.regions 0
  · intro e he; cases he
  · intro e he; cases he
  · intro e he; cases he
  · intro e he; cases he
  · intro e he; cases he
  · exact List.nodup_nil

/-- C9: within one hour (between two consecutive start-of-hour resets), each
canal executes at most one transfer, i.e. `setFlowRate` is called with a
transfer amount at most once per canal: the per-hour ghost trace never
records the same canal twice. -/
theorem c9_canal_at_most_once (canals0 : List Canal) (st : HourState) (ci : Nat) :
    ((runHour canals0 st).trace.map TransferEvent.canal).count ci ≤ 1 := by
  have hnd : ((runHour canals0 st).trace.map TransferEvent.canal).Nodup := by
    rw [runHour_def]
    exact (runHour_LoopInv canals0 st).2.2.2.2.2.2.2
  exact List.nodup_iff_count_le_one.mp hnd ci

end Acequia

